import Mathlib

/-!
Verification development for the dsv4l2 capture library.

The definitions below are shallow embeddings of the C sources:
  src/src/tempest.c, src/src/capture.c, src/src/policy/dsmil_bridge.c,
  src/src/device.c, src/src/runtime/event_buffer.c, src/src/metadata.c.
Machine integers are modelled as `Nat` with an explicit `% 2 ^ w` where the C
code can overflow.  Driver (ioctl) interactions are modelled by an explicit
environment: the kernel-held control value lives in the device state and
boolean flags select the failure branches of each ioctl call site.  Each
operation additionally returns the list of observable actions (event
emissions, buffer dequeues, ...) in source order.
-/

namespace DSV4L2

/-- Event type constants from dsv4l2rt.h (dsv4l2_event_type_t). -/
def EV_DEVICE_OPEN : Nat := 0x0001
def EV_CAPTURE_START : Nat := 0x0010
def EV_FRAME_ACQUIRED : Nat := 0x0012
def EV_FRAME_DROPPED : Nat := 0x0013
def EV_TEMPEST_TRANSITION : Nat := 0x0020
def EV_TEMPEST_QUERY : Nat := 0x0021
def EV_TEMPEST_LOCKDOWN : Nat := 0x0022
def EV_IRIS_CAPTURE : Nat := 0x0042
def EV_POLICY_VIOLATION : Nat := 0x0101

/-- Severity constants from dsv4l2rt.h (dsv4l2_severity_t). -/
def SEV_DEBUG : Nat := 0
def SEV_INFO : Nat := 1
def SEV_MEDIUM : Nat := 2
def SEV_HIGH : Nat := 3
def SEV_CRITICAL : Nat := 4

/-- dsv4l2_tempest_state_t from dsv4l2_annotations.h. -/
inductive TempestState
  | disabled
  | low
  | high
  | lockdown
deriving DecidableEq, Repr

/-- The integer value of a TEMPEST state (enum values 0..3). -/
def TempestState.toNat : TempestState → Nat
  | .disabled => 0
  | .low => 1
  | .high => 2
  | .lockdown => 3

/-- Decoding of a v4l2 control value, the switch in dsv4l2_get_tempest_state
(tempest.c): 0..3 map to the four states, anything else to DISABLED. -/
def tempestOfCtrl (v : Nat) : TempestState :=
  match v with
  | 0 => .disabled
  | 1 => .low
  | 2 => .high
  | 3 => .lockdown
  | _ => .disabled

/-- Error kinds surfaced by the embedded operations (§7 of the spec maps
them to errno values: denied = -EPERM, unsupported = -ENOTSUP,
eagain = -EAGAIN which the spec calls BufferEmpty, noDevice = -ENODEV,
invalidArgument = -EINVAL, ioErr e = -e for a driver errno e). -/
inductive Err
  | invalidArgument
  | denied
  | unsupported
  | eagain
  | noDevice
  | ioErr (code : Nat)
deriving DecidableEq, Repr

/-- Observable actions of an operation, recorded in source order.
`emit ty sev aux` is a dsv4l2rt_emit of an event with that type, severity
and auxiliary word; `read_tempest s` marks the return of a
dsv4l2_get_tempest_state call with result `s`; `check s ok` marks a
dsv4l2_policy_check call on state `s` returning allowed (`ok = true`) or
denied; `dequeue`/`queue` mark dsv4l2_dequeue_buffer/dsv4l2_queue_buffer. -/
inductive Action
  | emit (ty sev aux : Nat)
  | read_tempest (s : TempestState)
  | check (s : TempestState) (ok : Bool)
  | dequeue
  | queue
deriving DecidableEq, Repr

/-- The device state (struct dsv4l2_device_internal plus the public fields
used by the embedded code).  `ctrl_value` models the kernel-held value of
the v4l2 control with id `tempest_ctrl_id`; `tempest` is the cached state. -/
structure Device where
  tempest : TempestState
  tempest_ctrl_id : Nat
  ctrl_value : Nat
  streaming : Bool
  layer : Nat
  dev_id : Nat
deriving DecidableEq, Repr

/-- dsv4l2_get_tempest_state (tempest.c).  `gctrl_fails` selects the failure
branch of the VIDIOC_G_CTRL ioctl.  Returns the state, the updated device
and the action trace. -/
def dsv4l2_get_tempest_state (d : Device) (gctrl_fails : Bool) :
    TempestState × Device × List Action :=
  if d.tempest_ctrl_id = 0 then
    (.disabled, d, [Action.read_tempest .disabled])
  else if gctrl_fails then
    (d.tempest, d, [Action.read_tempest d.tempest])
  else
    let s := tempestOfCtrl d.ctrl_value
    (s, { d with tempest := s },
     [Action.emit EV_TEMPEST_QUERY SEV_DEBUG s.toNat, Action.read_tempest s])

/-- dsv4l2_policy_check (tempest.c): LOCKDOWN blocks all capture, every
other state allows it.  `true` means allowed (C return value 0). -/
def dsv4l2_policy_check (s : TempestState) : Bool :=
  s != TempestState.lockdown

/-- dsv4l2_set_tempest_state (tempest.c).  The enum-range validation of the
C code is vacuous for values of the enum type and is therefore not a branch
here.  `sctrl_fails` selects the failure branch of the VIDIOC_S_CTRL ioctl,
which leaves the cached state as the preceding get left it. -/
def dsv4l2_set_tempest_state (d : Device) (gctrl_fails sctrl_fails : Bool)
    (sctrl_err : Nat) (ns : TempestState) :
    Except Err Unit × Device × List Action :=
  if d.tempest_ctrl_id = 0 then
    (.error .unsupported, d, [])
  else
    let r := dsv4l2_get_tempest_state d gctrl_fails
    let old := r.1
    let d1 := r.2.1
    let t1 := r.2.2
    if sctrl_fails then
      (.error (.ioErr sctrl_err), d1, t1)
    else
      let d2 := { d1 with ctrl_value := ns.toNat, tempest := ns }
      let t2 := t1 ++
        [Action.emit EV_TEMPEST_TRANSITION SEV_CRITICAL
          (old.toNat * 65536 + ns.toNat)]
      let t3 := if ns = TempestState.lockdown then
          t2 ++ [Action.emit EV_TEMPEST_LOCKDOWN SEV_CRITICAL 0]
        else t2
      (.ok (), d2, t3)

/-- One dequeued v4l2 buffer (the fields of struct v4l2_buffer the capture
path reads). -/
structure DqBuf where
  index : Nat
  bytesused : Nat
deriving DecidableEq, Repr

/-- An output frame: the mapped buffer it points into and its length
(out->data, out->len in capture.c). -/
structure Frame where
  buf_index : Nat
  len : Nat
deriving DecidableEq, Repr

/-- Environment of one capture call: failure selectors for the driver
interactions it performs. -/
structure CaptureEnv where
  gctrl_fails : Bool
  streamon_ok : Bool
  streamon_err : Nat
  dq : Option DqBuf
  dq_err : Nat
  getbuf_ok : Bool
  getbuf_err : Nat
deriving DecidableEq, Repr

deriving instance DecidableEq for Except

/-- Result of a capture call: return value, device state, action trace. -/
structure CapResult where
  res : Except Err Frame
  dev : Device
  trace : List Action
deriving DecidableEq, Repr

/-- The tail of dsv4l2_capture_frame after the policy gate and the
streaming check: dequeue, get_buffer, fill frame, emit FRAME_ACQUIRED,
requeue (capture.c lines 159..186). -/
def capture_frame_io (d : Device) (t : List Action) (env : CaptureEnv) :
    CapResult :=
  match env.dq with
  | none =>
      { res := .error (.ioErr env.dq_err), dev := d,
        trace := t ++ [Action.dequeue,
          Action.emit EV_FRAME_DROPPED SEV_MEDIUM env.dq_err] }
  | some buf =>
      if env.getbuf_ok then
        { res := .ok ⟨buf.index, buf.bytesused⟩, dev := d,
          trace := t ++ [Action.dequeue,
            Action.emit EV_FRAME_ACQUIRED SEV_INFO buf.bytesused,
            Action.queue] }
      else
        { res := .error (.ioErr env.getbuf_err), dev := d,
          trace := t ++ [Action.dequeue, Action.queue] }

/-- dsv4l2_capture_frame (capture.c): read TEMPEST state, policy check
(on denial emit POLICY_VIOLATION with the state in aux and fail), ensure
streaming (dsv4l2_start_streaming emits CAPTURE_START on success), then the
buffer I/O tail. -/
def dsv4l2_capture_frame (d : Device) (env : CaptureEnv) : CapResult :=
  let r := dsv4l2_get_tempest_state d env.gctrl_fails
  let s := r.1
  let d1 := r.2.1
  let t1 := r.2.2 ++ [Action.check s (dsv4l2_policy_check s)]
  if dsv4l2_policy_check s = false then
    { res := .error .denied, dev := d1,
      trace := t1 ++ [Action.emit EV_POLICY_VIOLATION SEV_CRITICAL s.toNat] }
  else if d1.streaming then
    capture_frame_io d1 t1 env
  else if env.streamon_ok then
    capture_frame_io { d1 with streaming := true }
      (t1 ++ [Action.emit EV_CAPTURE_START SEV_INFO 0]) env
  else
    { res := .error (.ioErr env.streamon_err), dev := d1, trace := t1 }

/-- The tail of dsv4l2_capture_iris after its gates: dequeue (no
FRAME_DROPPED emission in the iris path), get_buffer, fill frame, requeue
(capture.c lines 253..277; the iris path emits no FRAME_ACQUIRED). -/
def capture_iris_io (d : Device) (t : List Action) (env : CaptureEnv) :
    CapResult :=
  match env.dq with
  | none =>
      { res := .error (.ioErr env.dq_err), dev := d,
        trace := t ++ [Action.dequeue] }
  | some buf =>
      if env.getbuf_ok then
        { res := .ok ⟨buf.index, buf.bytesused⟩, dev := d,
          trace := t ++ [Action.dequeue, Action.queue] }
      else
        { res := .error (.ioErr env.getbuf_err), dev := d,
          trace := t ++ [Action.dequeue, Action.queue] }

/-- dsv4l2_capture_iris (capture.c): emit IRIS_CAPTURE, read TEMPEST state,
fail on LOCKDOWN with a TEMPEST_LOCKDOWN emission carrying the state,
then the general policy check (POLICY_VIOLATION on denial), streaming,
and the buffer I/O tail. -/
def dsv4l2_capture_iris (d : Device) (env : CaptureEnv) : CapResult :=
  let t0 := [Action.emit EV_IRIS_CAPTURE SEV_HIGH 0]
  let r := dsv4l2_get_tempest_state d env.gctrl_fails
  let s := r.1
  let d1 := r.2.1
  let tA := t0 ++ r.2.2
  if s = TempestState.lockdown then
    { res := .error .denied, dev := d1,
      trace := tA ++ [Action.emit EV_TEMPEST_LOCKDOWN SEV_CRITICAL s.toNat] }
  else
    let tB := tA ++ [Action.check s (dsv4l2_policy_check s)]
    if dsv4l2_policy_check s = false then
      { res := .error .denied, dev := d1,
        trace := tB ++ [Action.emit EV_POLICY_VIOLATION SEV_CRITICAL s.toNat] }
    else if d1.streaming then
      capture_iris_io d1 tB env
    else if env.streamon_ok then
      capture_iris_io { d1 with streaming := true }
        (tB ++ [Action.emit EV_CAPTURE_START SEV_INFO 0]) env
    else
      { res := .error (.ioErr env.streamon_err), dev := d1, trace := tB }

/-- dsmil_threatcon_t (dsmil_bridge.c), levels 0..5. -/
inductive Threatcon
  | normal
  | alpha
  | bravo
  | charlie
  | delta
  | emergency
deriving DecidableEq, Repr

/-- g_threatcon_tempest_map (dsmil_bridge.c). -/
def g_threatcon_tempest_map : Threatcon → TempestState
  | .normal => .disabled
  | .alpha => .low
  | .bravo => .low
  | .charlie => .high
  | .delta => .high
  | .emergency => .lockdown

/-- dsv4l2_apply_threatcon (dsmil_bridge.c): map the current THREATCON to a
TEMPEST state and drive the device through dsv4l2_set_tempest_state. -/
def dsv4l2_apply_threatcon (tc : Threatcon) (d : Device)
    (gctrl_fails sctrl_fails : Bool) (sctrl_err : Nat) :
    Except Err Unit × Device × List Action :=
  dsv4l2_set_tempest_state d gctrl_fails sctrl_fails sctrl_err
    (g_threatcon_tempest_map tc)

/-- dsv4l2_layer_policy_t (dsmil_bridge.c). -/
structure LayerPolicy where
  max_width : Nat
  max_height : Nat
  min_tempest : TempestState
deriving DecidableEq, Repr

instance : Inhabited LayerPolicy := ⟨⟨0, 0, .disabled⟩⟩

/-- g_layer_policies (dsmil_bridge.c), indexed by layer 0..8. -/
def g_layer_policies : List LayerPolicy :=
  [ ⟨0, 0, .disabled⟩,
    ⟨0, 0, .disabled⟩,
    ⟨640, 480, .disabled⟩,
    ⟨1280, 720, .disabled⟩,
    ⟨1920, 1080, .low⟩,
    ⟨1920, 1080, .low⟩,
    ⟨1920, 1080, .low⟩,
    ⟨3840, 2160, .high⟩,
    ⟨3840, 2160, .high⟩ ]

/-- dsv4l2_check_capture_allowed (dsmil_bridge.c): read the current TEMPEST
state, deny on LOCKDOWN, deny when the layer is in range and the state is
below the layer minimum. -/
def dsv4l2_check_capture_allowed (d : Device) (gctrl_fails : Bool) :
    Except Err Unit × Device × List Action :=
  let r := dsv4l2_get_tempest_state d gctrl_fails
  let s := r.1
  if s = TempestState.lockdown then
    (.error .denied, r.2.1, r.2.2)
  else if d.layer ≤ 8 ∧
      s.toNat < ((g_layer_policies.getD d.layer default).min_tempest).toNat then
    (.error .denied, r.2.1, r.2.2)
  else
    (.ok (), r.2.1, r.2.2)

/-- Does `needle` start `hay`? (helper for the strstr model). -/
def starts_with : List Char → List Char → Bool
  | [], _ => true
  | _ :: _, [] => false
  | a :: as, b :: bs => a == b && starts_with as bs

/-- strstr(hay, needle) != NULL: `needle` occurs contiguously in `hay`. -/
def strstr_contains (hay needle : List Char) : Bool :=
  match hay with
  | [] => starts_with needle []
  | c :: t => starts_with needle (c :: t) || strstr_contains t needle

/-- get_clearance_from_classification (dsmil_bridge.c).  Clearance levels
are the integers of clearance_level_t: NONE 0, UNCLASSIFIED 1,
CONFIDENTIAL 2, SECRET 3, TOP_SECRET 4. -/
def get_clearance_from_classification (c : List Char) : Nat :=
  if strstr_contains c "TOP_SECRET".data || strstr_contains c "TOP SECRET".data
    then 4
  else if strstr_contains c "SECRET".data then 3
  else if strstr_contains c "CONFIDENTIAL".data then 2
  else if strstr_contains c "UNCLASSIFIED".data then 1
  else 0

/-- get_role_clearance_requirement (dsmil_bridge.c): the fixed role table,
unknown roles default to UNCLASSIFIED (1). -/
def get_role_clearance_requirement (r : List Char) : Nat :=
  if r = "generic_webcam".data then 1
  else if r = "ir_sensor".data then 2
  else if r = "iris_scanner".data then 3
  else if r = "tempest_cam".data then 4
  else 1

/-- dsv4l2_check_clearance (dsmil_bridge.c).  `user` is the cached user
clearance (read once from DSV4L2_CLEARANCE); the call denies when it is
below the larger of the classification and role requirements. -/
def dsv4l2_check_clearance (user : Nat) (role classification : List Char) :
    Except Err Unit :=
  let required := get_clearance_from_classification classification
  let role_req := get_role_clearance_requirement role
  let required := if role_req > required then role_req else required
  if user < required then .error .denied else .ok ()

/-- The fields of dsv4l2_device_profile_t that load_device_profile reads. -/
structure DeviceProfile where
  classification : List Char
  tempest_ctrl_id : Nat
  filename : List Char
deriving DecidableEq, Repr

/-- load_device_profile (device.c): apply the profile found by role, or the
role-keyed defaults; unknown roles get classification UNCLASSIFIED and no
TEMPEST control (id 0).  Returns (classification, tempest_ctrl_id). -/
def load_device_profile (role : List Char) (found : Option DeviceProfile) :
    List Char × Nat :=
  match found with
  | some p => (p.classification, p.tempest_ctrl_id)
  | none =>
      if role = "iris_scanner".data then ("SECRET_BIOMETRIC".data, 0x9a0902)
      else if role = "ir_sensor".data then ("SECRET".data, 0x9a0902)
      else if role = "tempest_cam".data then ("TEMPEST_ONLY".data, 0x9a0902)
      else ("UNCLASSIFIED".data, 0)

/-- hash_device_path (device.c): DJB2 over the path, 32-bit wrapping. -/
def hash_device_path (p : List Char) : Nat :=
  p.foldl (fun h c => (h * 33 + c.toNat) % 2 ^ 32) 5381

/-- Environment of one dsv4l2_open call: failure selectors for the open(2)
and VIDIOC_QUERYCAP calls, the capture-capability bit, and the kernel-held
initial value of the TEMPEST control. -/
structure OpenEnv where
  open_ok : Bool
  open_err : Nat
  querycap_ok : Bool
  querycap_err : Nat
  has_capture_cap : Bool
  ctrl_value : Nat
deriving DecidableEq, Repr

/-- dsv4l2_open (device.c): open the descriptor, query capabilities, reject
non-capture devices, load the profile, check clearance (POLICY_VIOLATION
and Denied on refusal), then initialise TEMPEST state to DISABLED and
unconditionally set tempest_ctrl_id to the default 0x9a0902, and emit
DEVICE_OPEN. -/
def dsv4l2_open (env : OpenEnv) (path role : List Char) (user : Nat)
    (found : Option DeviceProfile) : Except Err Device × List Action :=
  if env.open_ok = false then (.error (.ioErr env.open_err), [])
  else if env.querycap_ok = false then (.error (.ioErr env.querycap_err), [])
  else if env.has_capture_cap = false then (.error .noDevice, [])
  else
    let pr := load_device_profile role found
    match dsv4l2_check_clearance user role pr.1 with
    | .error _ =>
        (.error .denied, [Action.emit EV_POLICY_VIOLATION SEV_CRITICAL 0])
    | .ok _ =>
        (.ok { tempest := .disabled, tempest_ctrl_id := 0x9a0902,
               ctrl_value := env.ctrl_value, streaming := false, layer := 3,
               dev_id := hash_device_path path },
         [Action.emit EV_DEVICE_OPEN SEV_INFO 0])

/-- dsv4l2_event_t (dsv4l2rt.h): the fixed-layout event record.  `role` and
`mission` are the 16- and 32-byte character arrays. -/
structure Event where
  ts_ns : Nat
  dev_id : Nat
  event_type : Nat
  severity : Nat
  aux : Nat
  layer : Nat
  role : List Nat
  mission : List Nat
deriving DecidableEq, Repr

instance : Inhabited Event :=
  ⟨⟨0, 0, 0, 0, 0, 0, List.replicate 16 0, List.replicate 32 0⟩⟩

/-- Little-endian byte image of `n` in `w` bytes. -/
def le_bytes (w n : Nat) : List Nat :=
  (List.range w).map (fun i => n / 256 ^ i % 256)

/-- The wire image of one event record (host little-endian layout of
dsv4l2_event_t: u64 ts_ns, u32 dev_id, u16 event_type, u16 severity,
u32 aux, u32 layer, char role[16], char mission[32]). -/
def event_bytes (e : Event) : List Nat :=
  le_bytes 8 e.ts_ns ++ le_bytes 4 e.dev_id ++ le_bytes 2 e.event_type ++
  le_bytes 2 e.severity ++ le_bytes 4 e.aux ++ le_bytes 4 e.layer ++
  (e.role.take 16 ++ List.replicate (16 - e.role.length) 0) ++
  (e.mission.take 32 ++ List.replicate (32 - e.mission.length) 0)

/-- The contiguous byte image of a list of event records. -/
def chunk_bytes (es : List Event) : List Nat :=
  (es.map event_bytes).flatten

/-- event_buffer_t (event_buffer.c): the bounded ring.  `events` has length
`capacity`; `head` is the write position, `tail` the read position. -/
structure Ring where
  events : List Event
  capacity : Nat
  head : Nat
  tail : Nat
  count : Nat
deriving DecidableEq, Repr

/-- init_event_buffer (event_buffer.c): a zeroed ring of the given
capacity. -/
def init_event_buffer (capacity : Nat) : Ring :=
  { events := List.replicate capacity default, capacity := capacity,
    head := 0, tail := 0, count := 0 }

/-- buffer_add_event (event_buffer.c): when full, advance the tail over the
oldest event and record one drop; then store at the head and advance it.
Returns the new ring and whether an event was dropped. -/
def buffer_add_event (b : Ring) (e : Event) : Ring × Bool :=
  let p := if b.count ≥ b.capacity then
      ({ b with tail := (b.tail + 1) % b.capacity, count := b.count - 1 }, true)
    else (b, false)
  let b1 := p.1
  ({ b1 with
      events := b1.events.set b1.head e,
      head := (b1.head + 1) % b1.capacity,
      count := b1.count + 1 }, p.2)

/-- A sequence of dsv4l2rt_emit calls reaching buffer_add_event (profile
not OFF), counting drops as events_dropped does. -/
def run_emits (b : Ring) (es : List Event) : Ring × Nat :=
  es.foldl (fun acc e =>
    let r := buffer_add_event acc.1 e
    (r.1, acc.2 + if r.2 then 1 else 0)) (b, 0)

/-- The buffered events in order, oldest first. -/
def ring_contents (b : Ring) : List Event :=
  (List.range b.count).map (fun i => b.events.getD ((b.tail + i) % b.capacity) default)

/-- The copy loop of buffer_get_events: read `n` events starting at the
tail, advancing the tail once per event. -/
def drain_loop (b : Ring) (acc : List Event) : Nat → List Event × Ring
  | 0 => (acc, b)
  | n + 1 =>
      drain_loop { b with tail := (b.tail + 1) % b.capacity }
        (acc ++ [b.events.getD b.tail default]) n

/-- buffer_get_events (event_buffer.c): extract at most `max_count` events
from the ring, oldest first, then lower the count. -/
def buffer_get_events (b : Ring) (max_count : Nat) : List Event × Ring :=
  let cnt := min b.count max_count
  let r := drain_loop b [] cnt
  (r.1, { r.2 with count := b.count - cnt })

/-- The runtime state read by dsv4l2rt_get_signed_chunk (the `runtime`
static of event_buffer.c).  `chunk_sequence` is a uint32_t. -/
structure Runtime where
  initialized : Bool
  tpm_enabled : Bool
  chunk_sequence : Nat
  buffer : Ring
deriving DecidableEq, Repr

/-- dsv4l2rt_chunk_header_t (dsv4l2rt.h). -/
structure ChunkHeader where
  chunk_id : Nat
  timestamp_ns : Nat
  event_count : Nat
  tpm_signature : List Nat
deriving DecidableEq, Repr

/-- dsv4l2rt_get_signed_chunk (event_buffer.c): refuse when uninitialised
(-EAGAIN), extract up to 256 events, fail with -EAGAIN (the spec's
BufferEmpty) when none, fill the header with the post-incremented 32-bit
chunk counter, the first event's timestamp and the count, and set the
signature to the constant 0x5A fill when TPM signing is enabled (the header
is zeroed first, so it stays all-zero otherwise). -/
def dsv4l2rt_get_signed_chunk (rt : Runtime) :
    Except Err (ChunkHeader × List Event) × Runtime :=
  if rt.initialized = false then (.error .eagain, rt)
  else
    let r := buffer_get_events rt.buffer 256
    let batch := r.1
    if batch.isEmpty then (.error .eagain, { rt with buffer := r.2 })
    else
      let header : ChunkHeader :=
        { chunk_id := rt.chunk_sequence,
          timestamp_ns := (batch.headD default).ts_ns,
          event_count := batch.length,
          tpm_signature := if rt.tpm_enabled then List.replicate 256 0x5A
            else List.replicate 256 0 }
      (.ok (header, batch),
       { rt with
          buffer := r.2,
          chunk_sequence := (rt.chunk_sequence + 1) % 2 ^ 32 })

/-- The initial best_delta of dsv4l2_sync_metadata (UINT64_MAX). -/
def UINT64_MAX : Nat := 2 ^ 64 - 1

/-- The 50 ms fusion window of dsv4l2_sync_metadata, in nanoseconds. -/
def SYNC_THRESHOLD_NS : Nat := 50000000

/-- The per-candidate delta of dsv4l2_sync_metadata:
|frame_ts − meta_ts| on uint64 operands. -/
def ts_delta (frame_ts meta_ts : Nat) : Nat :=
  if meta_ts > frame_ts then meta_ts - frame_ts else frame_ts - meta_ts

/-- The candidate loop of dsv4l2_sync_metadata: scan the metadata
timestamps keeping the first index with a strictly smaller delta. -/
def find_best (ft : Nat) : List Nat → Nat → Option Nat × Nat → Option Nat × Nat
  | [], _, best => best
  | m :: rest, i, best =>
      let d := ts_delta ft m
      if d < best.2 then find_best ft rest (i + 1) (some i, d)
      else find_best ft rest (i + 1) best

/-- dsv4l2_sync_metadata (metadata.c): empty input yields no match (-1,
modelled as `none`); otherwise the closest candidate is returned unless its
delta exceeds the 50 ms threshold. -/
def dsv4l2_sync_metadata (ft : Nat) (metas : List Nat) : Option Nat :=
  if metas.isEmpty then none
  else
    let r := find_best ft metas 0 (none, UINT64_MAX)
    match r.1 with
    | none => none
    | some i => if r.2 > SYNC_THRESHOLD_NS then none else some i

/-- dsv4l2_klv_item_t (dsv4l2_metadata.h): 16-byte key, decoded length,
value bytes (the C item borrows the value slice from the input buffer;
here the slice is materialised). -/
structure KlvItem where
  key : List Nat
  length : Nat
  value : List Nat
deriving DecidableEq, Repr

/-- The contiguous byte range data[start .. start+len). -/
def slice (data : List Nat) (start len : Nat) : List Nat :=
  (data.drop start).take len

/-- The long-form length accumulation of dsv4l2_parse_klv:
length = (length << 8) | byte over the given bytes. -/
def ber_long_value (bytes : List Nat) : Nat :=
  bytes.foldl (fun acc b => acc * 256 + b) 0

/-- The parse loop of dsv4l2_parse_klv (metadata.c).  The loop runs while
pos + 16 + 1 < length; each iteration reads a 16-byte key, one length byte
(high bit set: up to 4 subsequent big-endian bytes), validates bounds
(failure rejects the whole buffer with -EINVAL, modelled as `none`), and
records the item.  Returns the item list and the final position.  The
first argument is recursion fuel; each iteration advances pos by at least
17, so data.length + 1 units always suffice (dsv4l2_parse_klv below
supplies them), making this an exact model of the C while loop. -/
def dsv4l2_parse_klv_loop :
    Nat → List Nat → Nat → List KlvItem → Option (List KlvItem × Nat)
  | 0, _, _, _ => none
  | fuel + 1, data, pos, acc =>
    if pos + 17 < data.length then
      let key := slice data pos 16
      let lb := data.getD (pos + 16) 0
      if 128 ≤ lb then
        let nb := lb - 128
        if nb > 4 ∨ pos + 17 + nb > data.length then none
        else
          let len := ber_long_value (slice data (pos + 17) nb)
          if pos + 17 + nb + len > data.length then none
          else
            dsv4l2_parse_klv_loop fuel data (pos + 17 + nb + len)
              (acc ++ [⟨key, len, slice data (pos + 17 + nb) len⟩])
      else
        if pos + 17 + lb > data.length then none
        else
          dsv4l2_parse_klv_loop fuel data (pos + 17 + lb)
            (acc ++ [⟨key, lb, slice data (pos + 17) lb⟩])
    else some (acc, pos)

/-- dsv4l2_parse_klv (metadata.c): run the parse loop from position 0
with adequate fuel. -/
def dsv4l2_parse_klv (data : List Nat) : Option (List KlvItem × Nat) :=
  dsv4l2_parse_klv_loop (data.length + 1) data 0 []

/-- Minimal big-endian byte string of `n` (empty for 0). -/
def be_bytes (n : Nat) : List Nat :=
  if h : n = 0 then [] else be_bytes (n / 256) ++ [n % 256]
decreasing_by exact Nat.div_lt_self (Nat.pos_of_ne_zero h) (by omega)

/-- Canonical BER length encoding (spec §4.H / glossary): the length itself
when below 128, otherwise a count byte with the high bit set followed by
the minimal big-endian bytes of the length. -/
def ber_encode (n : Nat) : List Nat :=
  if n < 128 then [n] else (128 + (be_bytes n).length) :: be_bytes n

/-- key ‖ BER-encoded length ‖ value for one item. -/
def ser_item (it : KlvItem) : List Nat :=
  it.key ++ ber_encode it.length ++ it.value

/-- The concatenation key ‖ ber(length) ‖ value over an item list. -/
def ser_all (items : List KlvItem) : List Nat :=
  (items.map ser_item).flatten

/-- A structurally valid item: 16-byte key of bytes, value bytes matching
the recorded length, length below 2^32 (the BER reader accepts at most 4
length bytes). -/
def valid_item (it : KlvItem) : Prop :=
  it.key.length = 16 ∧ it.value.length = it.length ∧
  (∀ b ∈ it.key, b < 256) ∧ (∀ b ∈ it.value, b < 256) ∧ it.length < 2 ^ 32

/-- A well-formed KLV buffer: a whole number of valid key/length/value
triplets with no trailing bytes (spec §8, round-trips). -/
def klv_wellformed (B : List Nat) : Prop :=
  ∃ L, (∀ it ∈ L, valid_item it) ∧ B = ser_all L

/-- The items of `L` the parser keeps: all of them, except that a final
item with an empty value (a 17-byte trailing triplet) is dropped by the
loop condition pos + 16 + 1 < length. -/
def klv_kept (L : List KlvItem) : List KlvItem :=
  match L.getLast? with
  | none => []
  | some it => if it.value.isEmpty then L.dropLast else L

/-! ## Theorems -/

/-- C8: a device whose TEMPEST control id is absent (zero) reads as
DISABLED for every driver/cache state, and every set request fails with
Unsupported leaving the device (in particular the cached state)
unchanged. -/
theorem c8_no_ctrl_disabled_and_unsupported :
    ∀ (d : Device) (g sf : Bool) (serr : Nat) (ns : TempestState),
      d.tempest_ctrl_id = 0 →
      dsv4l2_get_tempest_state d g =
        (.disabled, d, [Action.read_tempest .disabled]) ∧
      dsv4l2_set_tempest_state d g sf serr ns = (.error .unsupported, d, []) := by
  intro d g sf serr ns h
  constructor
  · simp [dsv4l2_get_tempest_state, h]
  · simp [dsv4l2_set_tempest_state, h]

/-- Concrete instance of c8_no_ctrl_disabled_and_unsupported. -/
def c8_dev : Device :=
  { tempest := .high, tempest_ctrl_id := 0, ctrl_value := 3,
    streaming := false, layer := 4, dev_id := 7 }

/-- Witness: c8 applied to a concrete device with no TEMPEST control whose
cache and driver value both say HIGH/LOCKDOWN. -/
theorem c8_witness :
    dsv4l2_get_tempest_state c8_dev true =
      (.disabled, c8_dev, [Action.read_tempest .disabled]) ∧
    dsv4l2_set_tempest_state c8_dev true false 5 .lockdown =
      (.error .unsupported, c8_dev, []) :=
  c8_no_ctrl_disabled_and_unsupported c8_dev true false 5 .lockdown rfl

/-- C10: every device produced by a successful dsv4l2_open has TEMPEST
control id 0x9a0902, whatever the bound profile or role defaults said, so
no opened device is in the no-TEMPEST-control state. -/
theorem c10_open_forces_default_ctrl :
    ∀ (env : OpenEnv) (path role : List Char) (user : Nat)
      (found : Option DeviceProfile) (d : Device) (t : List Action),
      dsv4l2_open env path role user found = (.ok d, t) →
      d.tempest_ctrl_id = 0x9a0902 ∧ d.tempest_ctrl_id ≠ 0 := by
  intro env path role user found d t h
  simp only [dsv4l2_open] at h
  split at h
  · simp at h
  split at h
  · simp at h
  split at h
  · simp at h
  split at h
  · simp at h
  · rw [Prod.mk.injEq] at h
    cases Except.ok.inj h.1
    exact ⟨rfl, show (0x9a0902 : Nat) ≠ 0 by decide⟩

/-- Open environment where every driver interaction succeeds. -/
def c10_env : OpenEnv :=
  { open_ok := true, open_err := 0, querycap_ok := true, querycap_err := 0,
    has_capture_cap := true, ctrl_value := 2 }

/-- The device c10_witness expects from dsv4l2_open. -/
def c10_dev : Device :=
  { tempest := .disabled, tempest_ctrl_id := 0x9a0902, ctrl_value := 2,
    streaming := false, layer := 3,
    dev_id := hash_device_path "/dev/video0".data }

/-- Witness: opening with the unknown role "camera" (whose role default
sets no TEMPEST control) still yields control id 0x9a0902. -/
theorem c10_witness :
    (load_device_profile "camera".data none).2 = 0 ∧
    dsv4l2_open c10_env "/dev/video0".data "camera".data 1 none =
      (.ok c10_dev, [Action.emit EV_DEVICE_OPEN SEV_INFO 0]) ∧
    c10_dev.tempest_ctrl_id = 0x9a0902 ∧ c10_dev.tempest_ctrl_id ≠ 0 :=
  ⟨by decide, by decide,
   c10_open_forces_default_ctrl c10_env "/dev/video0".data "camera".data 1
     none c10_dev [Action.emit EV_DEVICE_OPEN SEV_INFO 0] (by decide)⟩

/-- The classification requirement exactly as claim C9 words it: substring
scan in priority order TOP_SECRET, SECRET, CONFIDENTIAL, UNCLASSIFIED. -/
def claim_classification_requirement (c : List Char) : Nat :=
  if strstr_contains c "TOP_SECRET".data then 4
  else if strstr_contains c "SECRET".data then 3
  else if strstr_contains c "CONFIDENTIAL".data then 2
  else if strstr_contains c "UNCLASSIFIED".data then 1
  else 0

/-- C9 counterexample: on the classification string "TOP SECRET" the code
requires TOP_SECRET (the scan also matches the spaced spelling) and denies
a SECRET-cleared user for a generic_webcam, while the claim's scan order
gives only SECRET, under which the user is not below the maximum, so the
claim's "exactly when" fails at this input. -/
theorem c9_counterexample :
    dsv4l2_check_clearance 3 "generic_webcam".data "TOP SECRET".data =
      .error .denied ∧
    claim_classification_requirement "TOP SECRET".data = 3 ∧
    get_role_clearance_requirement "generic_webcam".data = 1 ∧
    ¬ (3 < max (claim_classification_requirement "TOP SECRET".data)
          (get_role_clearance_requirement "generic_webcam".data)) := by
  refine ⟨by decide, by decide, by decide, by decide⟩

/-- The amended classification scan: as the claim, but the top-priority
token TOP_SECRET also matches the spaced spelling "TOP SECRET". -/
def amended_classification_requirement (c : List Char) : Nat :=
  if strstr_contains c "TOP_SECRET".data || strstr_contains c "TOP SECRET".data
    then 4
  else if strstr_contains c "SECRET".data then 3
  else if strstr_contains c "CONFIDENTIAL".data then 2
  else if strstr_contains c "UNCLASSIFIED".data then 1
  else 0

/-- C9 amended: check_clearance denies exactly when the cached user
clearance is below the maximum of the amended classification requirement
(scan priority TOP_SECRET or "TOP SECRET", then SECRET, CONFIDENTIAL,
UNCLASSIFIED; no match requires nothing) and the fixed role table
requirement; and that amended scan is precisely the code's scan. -/
theorem c9_amended_clearance_iff :
    ∀ (user : Nat) (role classification : List Char),
      (dsv4l2_check_clearance user role classification = .error .denied ↔
        user < max (amended_classification_requirement classification)
          (get_role_clearance_requirement role)) ∧
      amended_classification_requirement classification =
        get_clearance_from_classification classification := by
  intro user role classification
  refine ⟨?_, rfl⟩
  simp only [dsv4l2_check_clearance]
  have h : (if get_role_clearance_requirement role >
        get_clearance_from_classification classification then
        get_role_clearance_requirement role
      else get_clearance_from_classification classification) =
      max (amended_classification_requirement classification)
        (get_role_clearance_requirement role) := by
    have : amended_classification_requirement classification =
        get_clearance_from_classification classification := rfl
    rw [this]
    split <;> omega
  rw [h]
  split
  · simp_all
  · simp_all

/-- Witness for c9_amended_clearance_iff: a CONFIDENTIAL-cleared user is
denied an iris_scanner (role requires SECRET). -/
theorem c9_amended_witness :
    dsv4l2_check_clearance 2 "iris_scanner".data "UNCLASSIFIED".data =
      .error .denied :=
  ((c9_amended_clearance_iff 2 "iris_scanner".data
    "UNCLASSIFIED".data).1).mpr (by decide)

/-- Is an action a POLICY_VIOLATION emission? -/
def is_policy_violation : Action → Bool
  | .emit ty _ _ => ty == EV_POLICY_VIOLATION
  | _ => false

/-- Layer-4 device with a TEMPEST control whose driver value is DISABLED,
already streaming. -/
def c2_dev : Device :=
  { tempest := .disabled, tempest_ctrl_id := 0x9a0902, ctrl_value := 0,
    streaming := true, layer := 4, dev_id := 9 }

/-- Capture environment where every driver interaction succeeds. -/
def env_ok : CaptureEnv :=
  { gctrl_fails := false, streamon_ok := true, streamon_err := 0,
    dq := some ⟨0, 100⟩, dq_err := 0, getbuf_ok := true, getbuf_err := 0 }

/-- C2 counterexample: a layer-4 device in state DISABLED (strictly below
the layer-4 minimum LOW, and not in LOCKDOWN) is *not* denied by the
generic capture entry point: the call returns a frame and emits no
PolicyViolation, because capture consults dsv4l2_policy_check (LOCKDOWN
only), not the layer-minimum policy. -/
theorem c2_counterexample :
    c2_dev.layer = 4 ∧ c2_dev.layer ≤ 8 ∧
    (dsv4l2_get_tempest_state c2_dev false).1 = .disabled ∧
    TempestState.disabled.toNat <
      ((g_layer_policies.getD c2_dev.layer default).min_tempest).toNat ∧
    (dsv4l2_capture_frame c2_dev env_ok).res = .ok ⟨0, 100⟩ ∧
    ∀ a ∈ (dsv4l2_capture_frame c2_dev env_ok).trace,
      is_policy_violation a = false := by
  refine ⟨rfl, by decide, by decide, by decide, by decide, by decide⟩

/-- C2 amended: dsv4l2_check_capture_allowed does deny whenever the layer
is in 0..8 and the current state is below the layer minimum, but the
generic capture entry point invokes dsv4l2_policy_check, which allows
every state except LOCKDOWN, so such a device's capture call never fails
with Denied. -/
theorem c2_amended_layer_check_not_wired :
    (∀ (d : Device) (g : Bool), d.layer ≤ 8 →
      ((dsv4l2_get_tempest_state d g).1).toNat <
        ((g_layer_policies.getD d.layer default).min_tempest).toNat →
      (dsv4l2_check_capture_allowed d g).1 = .error .denied) ∧
    (∀ s : TempestState, s ≠ .lockdown → dsv4l2_policy_check s = true) ∧
    (∀ (d : Device) (env : CaptureEnv),
      (dsv4l2_get_tempest_state d env.gctrl_fails).1 ≠ .lockdown →
      (dsv4l2_capture_frame d env).res ≠ .error .denied) := by
  refine ⟨?_, ?_, ?_⟩
  · intro d g hlayer hlt
    simp only [dsv4l2_check_capture_allowed]
    split
    · rfl
    · rw [if_pos ⟨hlayer, hlt⟩]
  · intro s hs
    cases s <;> simp_all [dsv4l2_policy_check]
  · intro d env hs
    have hpc : dsv4l2_policy_check (dsv4l2_get_tempest_state d env.gctrl_fails).1 = true := by
      simp [dsv4l2_policy_check, hs]
    simp only [dsv4l2_capture_frame, hpc]
    simp only [Bool.true_eq_false, if_false]
    split
    · simp only [capture_frame_io]
      split
      · simp
      · split <;> simp
    · split
      · simp only [capture_frame_io]
        split
        · simp
        · split <;> simp
      · simp

/-- Witness for c2_amended_layer_check_not_wired at the layer-4 DISABLED
device: the unwired policy denies, the wired gate allows. -/
theorem c2_amended_witness :
    (dsv4l2_check_capture_allowed c2_dev false).1 = .error .denied ∧
    dsv4l2_policy_check .disabled = true ∧
    (dsv4l2_capture_frame c2_dev env_ok).res ≠ .error .denied :=
  ⟨c2_amended_layer_check_not_wired.1 c2_dev false (by decide) (by decide),
   c2_amended_layer_check_not_wired.2.1 .disabled (by decide),
   c2_amended_layer_check_not_wired.2.2 c2_dev env_ok (by decide)⟩

/-- dsv4l2_get_tempest_state never changes the TEMPEST control id. -/
theorem get_tempest_preserves_ctrl_id (d : Device) (g : Bool) :
    (dsv4l2_get_tempest_state d g).2.1.tempest_ctrl_id = d.tempest_ctrl_id := by
  simp only [dsv4l2_get_tempest_state]
  split_ifs <;> rfl

/-- A successful set (control present, driver write succeeds) returns ok,
caches the requested state, writes it to the driver control, and keeps the
control id. -/
theorem set_tempest_ok (d : Device) (g : Bool) (serr : Nat)
    (ns : TempestState) (hc : d.tempest_ctrl_id ≠ 0) :
    (dsv4l2_set_tempest_state d g false serr ns).1 = .ok () ∧
    (dsv4l2_set_tempest_state d g false serr ns).2.1.tempest = ns ∧
    (dsv4l2_set_tempest_state d g false serr ns).2.1.ctrl_value = ns.toNat ∧
    (dsv4l2_set_tempest_state d g false serr ns).2.1.tempest_ctrl_id =
      d.tempest_ctrl_id := by
  simp [dsv4l2_set_tempest_state, hc, get_tempest_preserves_ctrl_id]

/-- A device whose cache and driver control both say LOCKDOWN reads as
LOCKDOWN whether or not the driver read fails. -/
theorem get_lockdown (d : Device) (g : Bool) (hc : d.tempest_ctrl_id ≠ 0)
    (h1 : d.tempest = .lockdown) (h2 : tempestOfCtrl d.ctrl_value = .lockdown) :
    (dsv4l2_get_tempest_state d g).1 = .lockdown := by
  simp only [dsv4l2_get_tempest_state]
  split_ifs <;> simp_all

/-- Generic capture is denied when the state read comes back LOCKDOWN. -/
theorem capture_frame_denied_of_lockdown (d : Device) (env : CaptureEnv)
    (hs : (dsv4l2_get_tempest_state d env.gctrl_fails).1 = .lockdown) :
    (dsv4l2_capture_frame d env).res = .error .denied := by
  simp only [dsv4l2_capture_frame, hs]
  simp [dsv4l2_policy_check]

/-- Iris capture is denied when the state read comes back LOCKDOWN. -/
theorem capture_iris_denied_of_lockdown (d : Device) (env : CaptureEnv)
    (hs : (dsv4l2_get_tempest_state d env.gctrl_fails).1 = .lockdown) :
    (dsv4l2_capture_iris d env).res = .error .denied := by
  simp only [dsv4l2_capture_iris, hs]
  simp

/-- C4: for every in-range threat condition, apply_threatcon (with a
present TEMPEST control and a successful driver write) drives the device's
cached state and driver control to exactly the mapped value of the fixed
table NORMAL→DISABLED, ALPHA→LOW, BRAVO→LOW, CHARLIE→HIGH, DELTA→HIGH,
EMERGENCY→LOCKDOWN; and after the EMERGENCY application (LOCKDOWN), every
subsequent capture call, generic or biometric, is denied. -/
theorem c4_apply_threatcon_drives_state :
    ∀ (tc : Threatcon) (d : Device) (g : Bool) (serr : Nat),
      d.tempest_ctrl_id ≠ 0 →
      (dsv4l2_apply_threatcon tc d g false serr).1 = .ok () ∧
      (dsv4l2_apply_threatcon tc d g false serr).2.1.tempest =
        g_threatcon_tempest_map tc ∧
      (dsv4l2_apply_threatcon tc d g false serr).2.1.ctrl_value =
        (g_threatcon_tempest_map tc).toNat ∧
      ∀ env : CaptureEnv, tc = .emergency →
        (dsv4l2_capture_frame
          (dsv4l2_apply_threatcon tc d g false serr).2.1 env).res =
          .error .denied ∧
        (dsv4l2_capture_iris
          (dsv4l2_apply_threatcon tc d g false serr).2.1 env).res =
          .error .denied := by
  intro tc d g serr hc
  simp only [dsv4l2_apply_threatcon]
  obtain ⟨h1, h2, h3, h4⟩ :=
    set_tempest_ok d g serr (g_threatcon_tempest_map tc) hc
  refine ⟨h1, h2, h3, ?_⟩
  intro env htc
  subst htc
  have hlk : (dsv4l2_set_tempest_state d g false serr
      (g_threatcon_tempest_map .emergency)).2.1.tempest = .lockdown := h2
  have hcv : tempestOfCtrl (dsv4l2_set_tempest_state d g false serr
      (g_threatcon_tempest_map .emergency)).2.1.ctrl_value = .lockdown := by
    rw [h3]; rfl
  have hc2 : (dsv4l2_set_tempest_state d g false serr
      (g_threatcon_tempest_map .emergency)).2.1.tempest_ctrl_id ≠ 0 := by
    rw [h4]; exact hc
  exact ⟨capture_frame_denied_of_lockdown _ env
      (get_lockdown _ env.gctrl_fails hc2 hlk hcv),
    capture_iris_denied_of_lockdown _ env
      (get_lockdown _ env.gctrl_fails hc2 hlk hcv)⟩

/-- Claim C1, first half: every dequeue in the trace is preceded by a
TEMPEST state read and a passing policy check on the state that was
read. -/
def checked_before_dequeue (t : List Action) : Prop :=
  ∀ k : Nat, t[k]? = some Action.dequeue →
    ∃ s i j, i < j ∧ j < k ∧ t[i]? = some (Action.read_tempest s) ∧
      t[j]? = some (Action.check s true)

/-- Claim C1, second half: whenever the policy check denies, the call
returns Denied without dequeuing, after emitting POLICY_VIOLATION with the
checked state in the auxiliary field. -/
def denial_emits_violation (r : CapResult) : Prop :=
  ∀ s : TempestState, Action.check s false ∈ r.trace →
    r.res = .error .denied ∧ Action.dequeue ∉ r.trace ∧
    Action.emit EV_POLICY_VIOLATION SEV_CRITICAL s.toNat ∈ r.trace

/-- A trace with no dequeue satisfies checked_before_dequeue vacuously. -/
theorem checked_of_no_dequeue (t : List Action) (h : Action.dequeue ∉ t) :
    checked_before_dequeue t :=
  fun _ hk => absurd (List.getElem?_mem hk) h

/-- checked_before_dequeue for a trace of the form
front ++ read s :: check s b :: tail, when the front has no dequeue and a
dequeue in the tail forces a passing check. -/
theorem checked_of_shape (front tail : List Action) (s : TempestState)
    (b : Bool) (hf : Action.dequeue ∉ front)
    (hb : Action.dequeue ∈ tail → b = true) :
    checked_before_dequeue
      (front ++ Action.read_tempest s :: Action.check s b :: tail) := by
  intro k hk
  have hlen : front.length + 2 ≤ k := by
    by_contra hlt
    push_neg at hlt
    rcases Nat.lt_or_ge k front.length with h1 | h2
    · rw [List.getElem?_append_left h1] at hk
      exact hf (List.getElem?_mem hk)
    · rw [List.getElem?_append_right h2] at hk
      rcases (by omega : k - front.length = 0 ∨ k - front.length = 1) with
        h3 | h3 <;> rw [h3] at hk <;> simp at hk
  have htail : Action.dequeue ∈ tail := by
    rw [List.getElem?_append_right (by omega : front.length ≤ k)] at hk
    have hm : k - front.length = (k - front.length - 2) + 1 + 1 := by omega
    rw [hm, List.getElem?_cons_succ, List.getElem?_cons_succ] at hk
    exact List.getElem?_mem hk
  have hb' := hb htail
  subst hb'
  refine ⟨s, front.length, front.length + 1, by omega, by omega, ?_, ?_⟩
  · rw [List.getElem?_append_right (le_refl front.length)]
    simp
  · rw [List.getElem?_append_right (by omega : front.length ≤ front.length + 1)]
    have h1 : front.length + 1 - front.length = 1 := by omega
    rw [h1]
    simp

/-- A result whose trace has no failing check satisfies
denial_emits_violation vacuously. -/
theorem denial_of_no_check (r : CapResult)
    (h : ∀ (s2 : TempestState) (b2 : Bool), Action.check s2 b2 ∉ r.trace) :
    denial_emits_violation r :=
  fun s2 hm => absurd hm (h s2 false)

/-- denial_emits_violation for a trace of the form
front ++ read s :: check s b :: tail with no other check actions, given
the denial behaviour when b = false. -/
theorem denial_of_shape (r : CapResult) (front tail : List Action)
    (s : TempestState) (b : Bool)
    (ht : r.trace = front ++ Action.read_tempest s :: Action.check s b :: tail)
    (hfc : ∀ (s2 : TempestState) (b2 : Bool), Action.check s2 b2 ∉ front)
    (hpc : ∀ (s2 : TempestState) (b2 : Bool), Action.check s2 b2 ∉ tail)
    (hden : b = false → r.res = .error .denied ∧ Action.dequeue ∉ r.trace ∧
      Action.emit EV_POLICY_VIOLATION SEV_CRITICAL s.toNat ∈ r.trace) :
    denial_emits_violation r := by
  intro s2 hmem
  rw [ht] at hmem
  simp only [List.mem_append, List.mem_cons] at hmem
  rcases hmem with hmf | hmr | hmc | hmt
  · exact absurd hmf (hfc s2 false)
  · exact absurd hmr (by simp)
  · obtain ⟨hs2, hb⟩ := Action.check.inj hmc
    subst hs2
    exact hden hb.symm
  · exact absurd hmt (hpc s2 false)

/-- The trace of a state read is a possibly-empty emission prefix followed
by the read_tempest marker of the returned state. -/
theorem get_trace_shape (d : Device) (g : Bool) :
    ∃ front0, (dsv4l2_get_tempest_state d g).2.2 =
      front0 ++ [Action.read_tempest (dsv4l2_get_tempest_state d g).1] ∧
    Action.dequeue ∉ front0 ∧
    (∀ (s2 : TempestState) (b2 : Bool), Action.check s2 b2 ∉ front0) := by
  simp only [dsv4l2_get_tempest_state]
  split_ifs
  · exact ⟨[], rfl, by simp, by simp⟩
  · exact ⟨[], rfl, by simp, by simp⟩
  · exact ⟨[Action.emit EV_TEMPEST_QUERY SEV_DEBUG
      (tempestOfCtrl d.ctrl_value).toNat], rfl, by simp, by simp⟩

/-- The generic-capture I/O tail appends only dequeue/queue/emit actions. -/
theorem capture_frame_io_trace (d1 : Device) (t : List Action)
    (env : CaptureEnv) :
    ∃ iotail, (capture_frame_io d1 t env).trace = t ++ iotail ∧
      ∀ (s2 : TempestState) (b2 : Bool), Action.check s2 b2 ∉ iotail := by
  simp only [capture_frame_io]
  rcases hdq : env.dq with _ | buf
  · exact ⟨_, rfl, by simp⟩
  · split_ifs
    · exact ⟨_, rfl, by simp⟩
    · exact ⟨_, rfl, by simp⟩

/-- The iris-capture I/O tail appends only dequeue/queue actions. -/
theorem capture_iris_io_trace (d1 : Device) (t : List Action)
    (env : CaptureEnv) :
    ∃ iotail, (capture_iris_io d1 t env).trace = t ++ iotail ∧
      ∀ (s2 : TempestState) (b2 : Bool), Action.check s2 b2 ∉ iotail := by
  simp only [capture_iris_io]
  rcases hdq : env.dq with _ | buf
  · exact ⟨_, rfl, by simp⟩
  · split_ifs
    · exact ⟨_, rfl, by simp⟩
    · exact ⟨_, rfl, by simp⟩

/-- Shape of every generic-capture trace: an emission-only front, the
state read, the policy check on the read state, then a check-free tail;
a dequeue can only occur after a passing check, and a failing check makes
the call deny with a POLICY_VIOLATION carrying the state. -/
theorem capture_frame_master (d : Device) (env : CaptureEnv) :
    ∃ front tail s b,
      (dsv4l2_capture_frame d env).trace =
        front ++ Action.read_tempest s :: Action.check s b :: tail ∧
      Action.dequeue ∉ front ∧
      (∀ (s2 : TempestState) (b2 : Bool), Action.check s2 b2 ∉ front) ∧
      (∀ (s2 : TempestState) (b2 : Bool), Action.check s2 b2 ∉ tail) ∧
      (Action.dequeue ∈ tail → b = true) ∧
      (b = false → (dsv4l2_capture_frame d env).res = .error .denied ∧
        Action.dequeue ∉ (dsv4l2_capture_frame d env).trace ∧
        Action.emit EV_POLICY_VIOLATION SEV_CRITICAL s.toNat ∈
          (dsv4l2_capture_frame d env).trace) := by
  obtain ⟨f0, hg, hgd, hgc⟩ := get_trace_shape d env.gctrl_fails
  by_cases hb : dsv4l2_policy_check (dsv4l2_get_tempest_state d
      env.gctrl_fails).1 = false
  · refine ⟨f0, [Action.emit EV_POLICY_VIOLATION SEV_CRITICAL
      (dsv4l2_get_tempest_state d env.gctrl_fails).1.toNat],
      (dsv4l2_get_tempest_state d env.gctrl_fails).1,
      dsv4l2_policy_check (dsv4l2_get_tempest_state d env.gctrl_fails).1,
      ?_, hgd, hgc, by simp, by simp, ?_⟩
    · simp only [dsv4l2_capture_frame, if_pos hb, hg]
      simp
    · intro _
      refine ⟨?_, ?_, ?_⟩
      · simp only [dsv4l2_capture_frame, if_pos hb]
      · simp only [dsv4l2_capture_frame, if_pos hb, hg]
        simp [hgd]
      · simp only [dsv4l2_capture_frame, if_pos hb, hg]
        simp
  · have hbt : dsv4l2_policy_check (dsv4l2_get_tempest_state d
        env.gctrl_fails).1 = true := by
      revert hb
      cases dsv4l2_policy_check (dsv4l2_get_tempest_state d env.gctrl_fails).1 <;>
        simp
    by_cases hstr : (dsv4l2_get_tempest_state d env.gctrl_fails).2.1.streaming
    · obtain ⟨iotail, hio, hioc⟩ := capture_frame_io_trace
        (dsv4l2_get_tempest_state d env.gctrl_fails).2.1
        ((dsv4l2_get_tempest_state d env.gctrl_fails).2.2 ++
          [Action.check (dsv4l2_get_tempest_state d env.gctrl_fails).1
            (dsv4l2_policy_check
              (dsv4l2_get_tempest_state d env.gctrl_fails).1)]) env
      refine ⟨f0, iotail, (dsv4l2_get_tempest_state d env.gctrl_fails).1,
        dsv4l2_policy_check (dsv4l2_get_tempest_state d env.gctrl_fails).1,
        ?_, hgd, hgc, hioc, fun _ => hbt,
        fun hf => by rw [hf] at hbt; cases hbt⟩
      simp only [dsv4l2_capture_frame, if_neg hb, if_pos hstr]
      rw [hio, hg]
      simp
    · by_cases hso : env.streamon_ok
      · obtain ⟨iotail, hio, hioc⟩ := capture_frame_io_trace
          { (dsv4l2_get_tempest_state d env.gctrl_fails).2.1 with
              streaming := true }
          ((dsv4l2_get_tempest_state d env.gctrl_fails).2.2 ++
            [Action.check (dsv4l2_get_tempest_state d env.gctrl_fails).1
              (dsv4l2_policy_check
                (dsv4l2_get_tempest_state d env.gctrl_fails).1)] ++
            [Action.emit EV_CAPTURE_START SEV_INFO 0]) env
        refine ⟨f0, Action.emit EV_CAPTURE_START SEV_INFO 0 :: iotail,
          (dsv4l2_get_tempest_state d env.gctrl_fails).1,
          dsv4l2_policy_check (dsv4l2_get_tempest_state d env.gctrl_fails).1,
          ?_, hgd, hgc, ?_, fun _ => hbt,
          fun hf => by rw [hf] at hbt; cases hbt⟩
        · simp only [dsv4l2_capture_frame, if_neg hb, if_neg hstr,
            if_pos hso]
          rw [hio, hg]
          simp
        · intro s2 b2
          simp [hioc s2 b2]
      · refine ⟨f0, [], (dsv4l2_get_tempest_state d env.gctrl_fails).1,
          dsv4l2_policy_check (dsv4l2_get_tempest_state d env.gctrl_fails).1,
          ?_, hgd, hgc, by simp, fun h => absurd h
          (List.not_mem_nil _), fun hf => by rw [hf] at hbt; cases hbt⟩
        simp only [dsv4l2_capture_frame, if_neg hb, if_neg hstr,
          if_neg hso]
        rw [hg]
        simp

/-- Shape of every iris-capture trace: either the LOCKDOWN short-circuit
(no policy-check action and no dequeue at all), or the same shape as the
generic path: emission front, state read, policy check, check-free tail
with any dequeue after a passing check. -/
theorem capture_iris_master (d : Device) (env : CaptureEnv) :
    (∃ front tail s b,
      (dsv4l2_capture_iris d env).trace =
        front ++ Action.read_tempest s :: Action.check s b :: tail ∧
      Action.dequeue ∉ front ∧
      (∀ (s2 : TempestState) (b2 : Bool), Action.check s2 b2 ∉ front) ∧
      (∀ (s2 : TempestState) (b2 : Bool), Action.check s2 b2 ∉ tail) ∧
      (Action.dequeue ∈ tail → b = true) ∧
      (b = false → (dsv4l2_capture_iris d env).res = .error .denied ∧
        Action.dequeue ∉ (dsv4l2_capture_iris d env).trace ∧
        Action.emit EV_POLICY_VIOLATION SEV_CRITICAL s.toNat ∈
          (dsv4l2_capture_iris d env).trace)) ∨
    ((∀ (s2 : TempestState) (b2 : Bool),
        Action.check s2 b2 ∉ (dsv4l2_capture_iris d env).trace) ∧
      Action.dequeue ∉ (dsv4l2_capture_iris d env).trace) := by
  obtain ⟨f0, hg, hgd, hgc⟩ := get_trace_shape d env.gctrl_fails
  by_cases hlk : (dsv4l2_get_tempest_state d env.gctrl_fails).1 =
      TempestState.lockdown
  · right
    constructor
    · intro s2 b2
      simp only [dsv4l2_capture_iris, if_pos hlk]
      rw [hg]
      simp [hgc s2 b2]
    · simp only [dsv4l2_capture_iris, if_pos hlk]
      rw [hg]
      simp [hgd]
  · left
    have hbt : dsv4l2_policy_check
        (dsv4l2_get_tempest_state d env.gctrl_fails).1 = true := by
      simp [dsv4l2_policy_check, bne_iff_ne]
      exact hlk
    have hnf : ¬ (dsv4l2_policy_check
        (dsv4l2_get_tempest_state d env.gctrl_fails).1 = false) := by
      simp [hbt]
    by_cases hstr : (dsv4l2_get_tempest_state d env.gctrl_fails).2.1.streaming
    · obtain ⟨iotail, hio, hioc⟩ := capture_iris_io_trace
        (dsv4l2_get_tempest_state d env.gctrl_fails).2.1
        ([Action.emit EV_IRIS_CAPTURE SEV_HIGH 0] ++
          (dsv4l2_get_tempest_state d env.gctrl_fails).2.2 ++
          [Action.check (dsv4l2_get_tempest_state d env.gctrl_fails).1
            (dsv4l2_policy_check
              (dsv4l2_get_tempest_state d env.gctrl_fails).1)]) env
      refine ⟨Action.emit EV_IRIS_CAPTURE SEV_HIGH 0 :: f0, iotail,
        (dsv4l2_get_tempest_state d env.gctrl_fails).1,
        dsv4l2_policy_check (dsv4l2_get_tempest_state d env.gctrl_fails).1,
        ?_, by simp [hgd], ?_, hioc, fun _ => hbt,
        fun hf => by rw [hf] at hbt; cases hbt⟩
      · simp only [dsv4l2_capture_iris, if_neg hlk, if_neg hnf, if_pos hstr]
        rw [hio, hg]
        simp
      · intro s2 b2
        simp [hgc s2 b2]
    · by_cases hso : env.streamon_ok
      · obtain ⟨iotail, hio, hioc⟩ := capture_iris_io_trace
          { (dsv4l2_get_tempest_state d env.gctrl_fails).2.1 with
              streaming := true }
          ([Action.emit EV_IRIS_CAPTURE SEV_HIGH 0] ++
            (dsv4l2_get_tempest_state d env.gctrl_fails).2.2 ++
            [Action.check (dsv4l2_get_tempest_state d env.gctrl_fails).1
              (dsv4l2_policy_check
                (dsv4l2_get_tempest_state d env.gctrl_fails).1)] ++
            [Action.emit EV_CAPTURE_START SEV_INFO 0]) env
        refine ⟨Action.emit EV_IRIS_CAPTURE SEV_HIGH 0 :: f0,
          Action.emit EV_CAPTURE_START SEV_INFO 0 :: iotail,
          (dsv4l2_get_tempest_state d env.gctrl_fails).1,
          dsv4l2_policy_check (dsv4l2_get_tempest_state d env.gctrl_fails).1,
          ?_, by simp [hgd], ?_, ?_, fun _ => hbt,
          fun hf => by rw [hf] at hbt; cases hbt⟩
        · simp only [dsv4l2_capture_iris, if_neg hlk, if_neg hnf,
            if_neg hstr, if_pos hso]
          rw [hio, hg]
          simp
        · intro s2 b2
          simp [hgc s2 b2]
        · intro s2 b2
          simp [hioc s2 b2]
      · refine ⟨Action.emit EV_IRIS_CAPTURE SEV_HIGH 0 :: f0, [],
          (dsv4l2_get_tempest_state d env.gctrl_fails).1,
          dsv4l2_policy_check (dsv4l2_get_tempest_state d env.gctrl_fails).1,
          ?_, by simp [hgd], ?_, by simp,
          fun h => absurd h (List.not_mem_nil _),
          fun hf => by rw [hf] at hbt; cases hbt⟩
        · simp only [dsv4l2_capture_iris, if_neg hlk, if_neg hnf,
            if_neg hstr, if_neg hso]
          rw [hg]
          simp
        · intro s2 b2
          simp [hgc s2 b2]

/-- C1: for both capture entry points, on every call (in particular every
call that returns a frame), a TEMPEST state read followed by a policy check
on the read state precedes any buffer dequeue; and whenever the policy
check denies, the call returns Denied without dequeuing, after emitting
POLICY_VIOLATION with the current state in the auxiliary field. -/
theorem c1_policy_before_frame :
    ∀ (d : Device) (env : CaptureEnv),
      (checked_before_dequeue (dsv4l2_capture_frame d env).trace ∧
        denial_emits_violation (dsv4l2_capture_frame d env)) ∧
      (checked_before_dequeue (dsv4l2_capture_iris d env).trace ∧
        denial_emits_violation (dsv4l2_capture_iris d env)) := by
  intro d env
  constructor
  · obtain ⟨front, tail, s, b, ht, hfd, hfc, htc, hbt, hden⟩ :=
      capture_frame_master d env
    constructor
    · rw [ht]
      exact checked_of_shape front tail s b hfd hbt
    · exact denial_of_shape _ front tail s b ht hfc htc hden
  · rcases capture_iris_master d env with
      ⟨front, tail, s, b, ht, hfd, hfc, htc, hbt, hden⟩ | ⟨hnc, hnd⟩
    · constructor
      · rw [ht]
        exact checked_of_shape front tail s b hfd hbt
      · exact denial_of_shape _ front tail s b ht hfc htc hden
    · exact ⟨checked_of_no_dequeue _ hnd, denial_of_no_check _ hnc⟩

/-- A device in LOCKDOWN, cache and driver agreeing. -/
def c1_dev : Device :=
  { tempest := .lockdown, tempest_ctrl_id := 0x9a0902, ctrl_value := 3,
    streaming := true, layer := 3, dev_id := 1 }

/-- Witness for c1_policy_before_frame: on the successful capture of the
DISABLED device the dequeue at position 3 is preceded by the read (1) and
the passing check (2); on the LOCKDOWN device the failing check yields
Denied, no dequeue, and a POLICY_VIOLATION carrying state 3. -/
theorem c1_witness :
    ((dsv4l2_capture_frame c2_dev env_ok).trace[3]? = some Action.dequeue ∧
      ∃ s i j, i < j ∧ j < 3 ∧
        (dsv4l2_capture_frame c2_dev env_ok).trace[i]? =
          some (Action.read_tempest s) ∧
        (dsv4l2_capture_frame c2_dev env_ok).trace[j]? =
          some (Action.check s true)) ∧
    ((dsv4l2_capture_frame c1_dev env_ok).res = .error .denied ∧
      Action.dequeue ∉ (dsv4l2_capture_frame c1_dev env_ok).trace ∧
      Action.emit EV_POLICY_VIOLATION SEV_CRITICAL
        TempestState.lockdown.toNat ∈
        (dsv4l2_capture_frame c1_dev env_ok).trace) :=
  ⟨⟨by decide, (c1_policy_before_frame c2_dev env_ok).1.1 3 (by decide)⟩,
   (c1_policy_before_frame c1_dev env_ok).1.2 .lockdown (by decide)⟩

/-- Layer-3 DISABLED device with a TEMPEST control, streaming. -/
def c4_dev : Device :=
  { tempest := .disabled, tempest_ctrl_id := 0x9a0902, ctrl_value := 0,
    streaming := true, layer := 3, dev_id := 3 }

/-- Witness for c4_apply_threatcon_drives_state: EMERGENCY drives the
device to LOCKDOWN and the next generic capture is denied. -/
theorem c4_witness :
    (dsv4l2_apply_threatcon .emergency c4_dev false false 0).1 = .ok () ∧
    (dsv4l2_apply_threatcon .emergency c4_dev false false 0).2.1.tempest =
      .lockdown ∧
    (dsv4l2_capture_frame
      (dsv4l2_apply_threatcon .emergency c4_dev false false 0).2.1
      env_ok).res = .error .denied := by
  obtain ⟨h1, h2, h3, h4⟩ :=
    c4_apply_threatcon_drives_state .emergency c4_dev false 0 (by decide)
  exact ⟨h1, h2.trans rfl, (h4 env_ok rfl).1⟩

/-- The candidate loop never increases the best delta and ends at or below
every candidate delta. -/
theorem find_best_le (ft : Nat) (ms : List Nat) (i : Nat)
    (b : Option Nat × Nat) :
    (find_best ft ms i b).2 ≤ b.2 ∧
    ∀ j (h : j < ms.length),
      (find_best ft ms i b).2 ≤ ts_delta ft (ms.get ⟨j, h⟩) := by
  induction ms generalizing i b with
  | nil => exact ⟨le_refl _, fun j h => absurd h (by simp)⟩
  | cons m rest ih =>
    simp only [find_best]
    split_ifs with hd
    · obtain ⟨h1, h2⟩ := ih (i + 1) (some i, ts_delta ft m)
      refine ⟨le_trans h1 (le_of_lt hd), ?_⟩
      intro j hj
      cases j with
      | zero => simpa using h1
      | succ j2 =>
          exact h2 j2 (by simpa using hj)
    · obtain ⟨h1, h2⟩ := ih (i + 1) b
      refine ⟨h1, ?_⟩
      intro j hj
      cases j with
      | zero => simpa using le_trans h1 (not_lt.mp hd)
      | succ j2 =>
          exact h2 j2 (by simpa using hj)

/-- The candidate loop either returns its seed unchanged or returns the
index and delta of an actual candidate. -/
theorem find_best_achieved (ft : Nat) (ms : List Nat) (i : Nat)
    (b : Option Nat × Nat) :
    find_best ft ms i b = b ∨
    ∃ j h, (find_best ft ms i b).1 = some (i + j) ∧
      (find_best ft ms i b).2 = ts_delta ft (ms.get ⟨j, h⟩) := by
  induction ms generalizing i b with
  | nil => exact Or.inl rfl
  | cons m rest ih =>
    simp only [find_best]
    split_ifs with hd
    · rcases ih (i + 1) (some i, ts_delta ft m) with heq | ⟨j, h, h1, h2⟩
      · right
        refine ⟨0, by simp, ?_, ?_⟩
        · rw [heq]; simp
        · rw [heq]; simp
      · right
        refine ⟨j + 1, by simpa using h, ?_, ?_⟩
        · rw [h1]; congr 1; omega
        · rw [h2]; simp
    · rcases ih (i + 1) b with heq | ⟨j, h, h1, h2⟩
      · exact Or.inl heq
      · right
        refine ⟨j + 1, by simpa using h, ?_, ?_⟩
        · rw [h1]; congr 1; omega
        · rw [h2]; simp

/-- On uint64 operands the delta is at most UINT64_MAX. -/
theorem ts_delta_le_max (ft m : Nat) (h1 : ft < 2 ^ 64) (h2 : m < 2 ^ 64) :
    ts_delta ft m ≤ UINT64_MAX := by
  simp only [ts_delta, UINT64_MAX]
  split_ifs <;> omega

/-- Evaluation of dsv4l2_sync_metadata once the loop result is known. -/
theorem sync_eval (ft : Nat) (metas : List Nat)
    (hemp : metas.isEmpty = false) :
    ((find_best ft metas 0 (none, UINT64_MAX)).1 = none →
      dsv4l2_sync_metadata ft metas = none) ∧
    (∀ i, (find_best ft metas 0 (none, UINT64_MAX)).1 = some i →
      dsv4l2_sync_metadata ft metas =
        if (find_best ft metas 0 (none, UINT64_MAX)).2 > SYNC_THRESHOLD_NS
          then none else some i) := by
  constructor
  · intro h
    simp [dsv4l2_sync_metadata, hemp, h]
  · intro i h
    simp [dsv4l2_sync_metadata, hemp, h]

/-- C6: dsv4l2_sync_metadata returns NoMatch exactly on an empty slice or
when every candidate's |frame − meta| exceeds the 50 ms window, and any
returned index is a within-window minimiser of |frame − meta|. -/
theorem c6_sync_metadata_window :
    ∀ (ft : Nat) (metas : List Nat), ft < 2 ^ 64 → (∀ m ∈ metas, m < 2 ^ 64) →
      (dsv4l2_sync_metadata ft metas = none ↔
        metas = [] ∨ ∀ j (h : j < metas.length),
          SYNC_THRESHOLD_NS < ts_delta ft (metas.get ⟨j, h⟩)) ∧
      (∀ i, dsv4l2_sync_metadata ft metas = some i →
        ∃ h : i < metas.length,
          ts_delta ft (metas.get ⟨i, h⟩) ≤ SYNC_THRESHOLD_NS ∧
          ∀ j (hj : j < metas.length),
            ts_delta ft (metas.get ⟨i, h⟩) ≤ ts_delta ft (metas.get ⟨j, hj⟩)) := by
  intro ft metas hft hms
  by_cases hemp : metas.isEmpty
  · constructor
    · simp [dsv4l2_sync_metadata, hemp, List.isEmpty_iff.mp hemp]
    · intro i hi
      simp [dsv4l2_sync_metadata, hemp] at hi
  · have hemp2 : metas.isEmpty = false := by simpa using hemp
    have hne : metas ≠ [] := by
      intro h
      rw [h] at hemp
      simp at hemp
    obtain ⟨heval0, heval1⟩ := sync_eval ft metas hemp2
    constructor
    · constructor
      · intro hnone
        right
        intro j hj
        rcases hcase : (find_best ft metas 0 (none, UINT64_MAX)).1 with _ | i
        · rcases find_best_achieved ft metas 0 (none, UINT64_MAX) with
            heq | ⟨j2, h2, ha, _⟩
          · have hv : (find_best ft metas 0 (none, UINT64_MAX)).2 =
                UINT64_MAX := by rw [heq]
            have hle := (find_best_le ft metas 0 (none, UINT64_MAX)).2 j hj
            rw [hv] at hle
            have hub := ts_delta_le_max ft (metas.get ⟨j, hj⟩) hft
              (hms _ (List.get_mem metas j hj))
            have hEq : ts_delta ft (metas.get ⟨j, hj⟩) = UINT64_MAX := by
              omega
            rw [hEq]
            simp [UINT64_MAX, SYNC_THRESHOLD_NS]
          · rw [hcase] at ha
            cases ha
        · have := heval1 i hcase
          rw [this] at hnone
          have hgt : SYNC_THRESHOLD_NS <
              (find_best ft metas 0 (none, UINT64_MAX)).2 := by
            by_contra hle2
            push_neg at hle2
            rw [if_neg (by omega)] at hnone
            cases hnone
          have hle := (find_best_le ft metas 0 (none, UINT64_MAX)).2 j hj
          omega
      · intro hcase
        rcases hcase with hcase | hall
        · exact absurd hcase hne
        · rcases hb : (find_best ft metas 0 (none, UINT64_MAX)).1 with _ | i
          · exact heval0 hb
          · rcases find_best_achieved ft metas 0 (none, UINT64_MAX) with
              heq | ⟨j2, h2, ha, hv⟩
            · rw [heq] at hb
              cases hb
            · rw [heval1 i hb, if_pos]
              rw [hv]
              exact hall j2 h2
    · intro i hi
      rcases hb : (find_best ft metas 0 (none, UINT64_MAX)).1 with _ | i2
      · rw [heval0 hb] at hi
        cases hi
      · rw [heval1 i2 hb] at hi
        rcases find_best_achieved ft metas 0 (none, UINT64_MAX) with
          heq | ⟨j2, h2, ha, hv⟩
        · rw [heq] at hb
          cases hb
        · rw [ha] at hb
          have hguard : ¬ ((find_best ft metas 0 (none, UINT64_MAX)).2 >
              SYNC_THRESHOLD_NS) := by
            intro hgt
            rw [if_pos hgt] at hi
            cases hi
          rw [if_neg hguard] at hi
          have hii : i = j2 := by
            have h3 := Option.some.inj hi
            have h4 := Option.some.inj hb
            omega
          subst hii
          refine ⟨h2, ?_, ?_⟩
          · rw [← hv]
            omega
          · intro j hj
            rw [← hv]
            exact (find_best_le ft metas 0 (none, UINT64_MAX)).2 j hj

/-- The metadata timestamps of spec scenario S5, in nanoseconds. -/
def s5_metas : List Nat :=
  [1000000000, 1100000000, 1200000000, 1300000000, 1400000000]

/-- Witness for c6_sync_metadata_window on scenario S5: a frame at 1.21 s
matches index 2 (a within-window minimiser) and a frame at 0.5 s has no
match because every delta exceeds the window. -/
theorem c6_witness :
    dsv4l2_sync_metadata 1210000000 s5_metas = some 2 ∧
    (∃ h : 2 < s5_metas.length,
      ts_delta 1210000000 (s5_metas.get ⟨2, h⟩) ≤ SYNC_THRESHOLD_NS ∧
      ∀ j (hj : j < s5_metas.length),
        ts_delta 1210000000 (s5_metas.get ⟨2, h⟩) ≤
          ts_delta 1210000000 (s5_metas.get ⟨j, hj⟩)) ∧
    dsv4l2_sync_metadata 500000000 s5_metas = none :=
  ⟨by decide,
   (c6_sync_metadata_window 1210000000 s5_metas (by decide) (by decide)).2 2
     (by decide),
   ((c6_sync_metadata_window 500000000 s5_metas (by decide) (by decide)).1).mpr
     (Or.inr (by decide))⟩

/-- getD after set at the written index. -/
theorem getD_set_eq_of_lt {α : Type} (l : List α) (n : Nat) (a d : α)
    (h : n < l.length) : (l.set n a).getD n d = a := by
  simp [List.getD_eq_getElem?_getD, List.getElem?_set_self, h]

/-- getD after set at a different index. -/
theorem getD_set_ne {α : Type} (l : List α) (m n : Nat) (a d : α)
    (h : m ≠ n) : (l.set m a).getD n d = l.getD n d := by
  simp [List.getD_eq_getElem?_getD, List.getElem?_set_ne h]

/-- getD into a dropped list. -/
theorem getD_drop_add {α : Type} (l : List α) (n i : Nat) (d : α) :
    (l.drop n).getD i d = l.getD (n + i) d := by
  simp [List.getD_eq_getElem?_getD, List.getElem?_drop]

/-- getD into an append, index within the left part. -/
theorem getD_append_lt {α : Type} (l1 l2 : List α) (i : Nat) (d : α)
    (h : i < l1.length) : (l1 ++ l2).getD i d = l1.getD i d := by
  simp [List.getD_eq_getElem?_getD, List.getElem?_append_left h]

/-- getD of an appended singleton at the old length. -/
theorem getD_append_len {α : Type} (es : List α) (e d : α) :
    (es ++ [e]).getD es.length d = e := by
  simp [List.getD_eq_getElem?_getD,
    List.getElem?_append_right (le_refl es.length)]

/-- Distinct residues: shifting by 0 < k < N changes the residue. -/
theorem mod_add_ne (N a k : Nat) (h1 : 0 < k) (h2 : k < N) :
    (a + k) % N ≠ a % N := by
  intro h
  rw [← Nat.mod_add_mod] at h
  rcases Nat.lt_or_ge (a % N + k) N with hlt | hge
  · rw [Nat.mod_eq_of_lt hlt] at h
    omega
  · have hr : a % N < N := Nat.mod_lt _ (by omega)
    rw [Nat.mod_eq_sub_mod hge, Nat.mod_eq_of_lt (by omega)] at h
    omega

/-- The ring invariant after the events `es` have been emitted into an
initially empty capacity-`N` ring: occupancy is min(len, N), the drop
counter holds the excess, and the ring holds the most recent events in
order starting at the tail. -/
def ring_inv (N : Nat) (es : List Event) (st : Ring × Nat) : Prop :=
  st.1.capacity = N ∧
  st.1.events.length = N ∧
  st.1.count = min es.length N ∧
  st.1.head = es.length % N ∧
  st.1.tail = (es.length - min es.length N) % N ∧
  st.2 = es.length - min es.length N ∧
  ∀ i, i < min es.length N →
    st.1.events.getD ((st.1.tail + i) % N) default =
      (es.drop (es.length - min es.length N)).getD i default

/-- The invariant holds for the freshly initialised ring. -/
theorem ring_inv_init (N : Nat) : ring_inv N [] (init_event_buffer N, 0) := by
  refine ⟨rfl, by simp [init_event_buffer], by simp [init_event_buffer],
    by simp [init_event_buffer], by simp [init_event_buffer], by simp, ?_⟩
  intro i hi
  simp at hi

/-- buffer_add_event preserves the ring invariant, extending the emitted
sequence by one event. -/
theorem ring_inv_step (N : Nat) (hN : 0 < N) (es : List Event) (e : Event)
    (st : Ring × Nat) (h : ring_inv N es st) :
    ring_inv N (es ++ [e])
      ((buffer_add_event st.1 e).1,
       st.2 + if (buffer_add_event st.1 e).2 then 1 else 0) := by
  obtain ⟨hcap, hlen, hcnt, hhead, htail, hdrop, hcont⟩ := h
  by_cases hfull : st.1.count ≥ st.1.capacity
  · -- full ring: the oldest event is overwritten
    have hge : N ≤ es.length := by omega
    have hb1 : (buffer_add_event st.1 e).1 =
        { st.1 with
            events := st.1.events.set st.1.head e,
            head := (st.1.head + 1) % st.1.capacity,
            tail := (st.1.tail + 1) % st.1.capacity,
            count := st.1.count - 1 + 1 } := by
      simp [buffer_add_event, hfull]
    have hb2 : (buffer_add_event st.1 e).2 = true := by
      simp [buffer_add_event, hfull]
    rw [hb1, hb2]
    refine ⟨hcap, by simpa using hlen, by simp; omega, ?_, ?_, by simp; omega,
      ?_⟩
    · show (st.1.head + 1) % st.1.capacity = (es ++ [e]).length % N
      rw [hhead, hcap, Nat.mod_add_mod]
      simp
    · show (st.1.tail + 1) % st.1.capacity =
        ((es ++ [e]).length - min (es ++ [e]).length N) % N
      rw [htail, hcap, Nat.mod_add_mod]
      congr 1
      simp
      omega
    · intro i hi
      simp only [List.length_append, List.length_singleton] at hi
      have hiN : i < N := by omega
      show (st.1.events.set st.1.head e).getD
          (((st.1.tail + 1) % st.1.capacity + i) % N) default =
        ((es ++ [e]).drop
          ((es ++ [e]).length - min (es ++ [e]).length N)).getD i default
      rw [hcap, Nat.mod_add_mod, htail]
      have hassoc : (es.length - min es.length N) % N + 1 + i =
          (es.length - min es.length N) % N + (1 + i) := by omega
      rw [hassoc, Nat.mod_add_mod]
      have hdropn : (es ++ [e]).length - min (es ++ [e]).length N =
          es.length + 1 - N := by
        simp
        omega
      rw [hdropn]
      have hidx : es.length - min es.length N + (1 + i) =
          es.length - N + 1 + i := by omega
      rw [hidx]
      by_cases hlast : i = N - 1
      · subst hlast
        have h1 : es.length - N + 1 + (N - 1) = es.length := by omega
        rw [h1, ← hhead,
          getD_set_eq_of_lt _ _ _ _
            (by rw [hlen, hhead]; exact Nat.mod_lt _ (by omega))]
        rw [getD_drop_add]
        have h2 : es.length + 1 - N + (N - 1) = es.length := by omega
        rw [h2, getD_append_len]
      · have hne : st.1.head ≠ (es.length - N + 1 + i) % N := by
          rw [hhead]
          have hsplit : es.length = (es.length - N + 1 + i) + (N - 1 - i) := by
            omega
          intro hx
          exact mod_add_ne N (es.length - N + 1 + i) (N - 1 - i)
            (by omega) (by omega) (by rw [← hsplit, ← hx])
        rw [getD_set_ne _ _ _ _ _ hne]
        have hold := hcont (i + 1) (by omega)
        rw [htail, Nat.mod_add_mod] at hold
        have hidx2 : es.length - min es.length N + (i + 1) =
            es.length - N + 1 + i := by omega
        rw [hidx2] at hold
        rw [hold, getD_drop_add, getD_drop_add]
        have hidx3 : es.length - min es.length N + (i + 1) =
            es.length + 1 - N + i := by omega
        rw [hidx3]
        rw [getD_append_lt _ _ _ _ (by omega)]
  · -- ring not full: plain append at the head
    have hlt : es.length < N := by omega
    have hb1 : (buffer_add_event st.1 e).1 =
        { st.1 with
            events := st.1.events.set st.1.head e,
            head := (st.1.head + 1) % st.1.capacity,
            count := st.1.count + 1 } := by
      simp [buffer_add_event, hfull]
    have hb2 : (buffer_add_event st.1 e).2 = false := by
      simp [buffer_add_event, hfull]
    rw [hb1, hb2]
    refine ⟨hcap, by simpa using hlen, by simp; omega, ?_, ?_, by simp; omega,
      ?_⟩
    · show (st.1.head + 1) % st.1.capacity = (es ++ [e]).length % N
      rw [hhead, hcap, Nat.mod_add_mod]
      simp
    · show st.1.tail = ((es ++ [e]).length - min (es ++ [e]).length N) % N
      rw [htail]
      congr 1
      simp
      omega
    · intro i hi
      simp only [List.length_append, List.length_singleton] at hi
      have hmin : min (es.length + 1) N = es.length + 1 := by omega
      have ht0 : st.1.tail = 0 := by
        rw [htail]
        have h0 : es.length - min es.length N = 0 := by omega
        rw [h0, Nat.zero_mod]
      show (st.1.events.set st.1.head e).getD ((st.1.tail + i) % N) default =
        ((es ++ [e]).drop
          ((es ++ [e]).length - min (es ++ [e]).length N)).getD i default
      have hdropn : (es ++ [e]).length - min (es ++ [e]).length N = 0 := by
        simp
        omega
      rw [hdropn, List.drop_zero, ht0, Nat.zero_add,
        Nat.mod_eq_of_lt (by omega : i < N)]
      have hhd : st.1.head = es.length := by
        rw [hhead, Nat.mod_eq_of_lt hlt]
      by_cases hlast : i = es.length
      · subst hlast
        rw [hhd, getD_set_eq_of_lt _ _ _ _ (by omega), getD_append_len]
      · have hilt : i < es.length := by omega
        rw [getD_set_ne _ _ _ _ _ (by omega)]
        have hold := hcont i (by omega)
        rw [ht0, Nat.zero_add, Nat.mod_eq_of_lt (by omega : i < N)] at hold
        have h0 : es.length - min es.length N = 0 := by omega
        rw [h0, List.drop_zero] at hold
        rw [hold, getD_append_lt _ _ _ _ hilt]

/-- The invariant holds after emitting any event sequence into a fresh
ring. -/
theorem run_emits_inv (N : Nat) (hN : 0 < N) (es : List Event) :
    ring_inv N es (run_emits (init_event_buffer N) es) := by
  induction es using List.reverseRecOn with
  | nil => exact ring_inv_init N
  | append_singleton es e ih =>
      have hfold : run_emits (init_event_buffer N) (es ++ [e]) =
          ((buffer_add_event (run_emits (init_event_buffer N) es).1 e).1,
           (run_emits (init_event_buffer N) es).2 +
             if (buffer_add_event
               (run_emits (init_event_buffer N) es).1 e).2 then 1 else 0) := by
        simp only [run_emits, List.foldl_append, List.foldl_cons,
          List.foldl_nil]
      rw [hfold]
      exact ring_inv_step N hN es e _ ih

/-- C5: after emitting `es` into an empty capacity-N ring, the occupancy
is min(len, N), the drop counter counts exactly the overwritten events
(max(len − N, 0)), the ring holds exactly the min(len, N) most recent
events in order, and the occupancy after any prefix never exceeds N. -/
theorem c5_ring_overflow :
    ∀ (N : Nat) (es : List Event), 0 < N →
      (run_emits (init_event_buffer N) es).1.count = min es.length N ∧
      (run_emits (init_event_buffer N) es).2 =
        es.length - min es.length N ∧
      ring_contents (run_emits (init_event_buffer N) es).1 =
        es.drop (es.length - min es.length N) ∧
      ∀ p, p <+: es → (run_emits (init_event_buffer N) p).1.count ≤ N := by
  intro N es hN
  obtain ⟨hcap, hlen, hcnt, hhead, htail, hdrop, hcont⟩ :=
    run_emits_inv N hN es
  refine ⟨hcnt, hdrop, ?_, ?_⟩
  · apply List.ext_getElem
    · simp [ring_contents, hcnt]
      omega
    · intro i h1 h2
      simp only [ring_contents, List.getElem_map, List.getElem_range]
      have hib : i < min es.length N := by
        simpa [ring_contents, hcnt] using h1
      rw [hcap]
      have := hcont i hib
      rw [this]
      exact List.getD_eq_getElem _ default h2
  · intro p _
    obtain ⟨_, _, hc, _⟩ := run_emits_inv N hN p
    rw [hc]
    omega

/-- Three distinguishable events. -/
def ev_a : Event := { (default : Event) with aux := 1 }
def ev_b : Event := { (default : Event) with aux := 2 }
def ev_c : Event := { (default : Event) with aux := 3 }

/-- Witness for c5_ring_overflow: three emissions into a capacity-2 ring
leave occupancy 2, one drop, and the two most recent events. -/
theorem c5_witness :
    (run_emits (init_event_buffer 2) [ev_a, ev_b, ev_c]).1.count = 2 ∧
    (run_emits (init_event_buffer 2) [ev_a, ev_b, ev_c]).2 = 1 ∧
    ring_contents (run_emits (init_event_buffer 2) [ev_a, ev_b, ev_c]).1 =
      [ev_b, ev_c] := by
  obtain ⟨h1, h2, h3, _⟩ :=
    c5_ring_overflow 2 [ev_a, ev_b, ev_c] (by decide)
  exact ⟨h1, h2, h3⟩

/-- Length of the drain loop result. -/
theorem drain_loop_len : ∀ (n : Nat) (b : Ring) (acc : List Event),
    (drain_loop b acc n).1.length = acc.length + n := by
  intro n
  induction n with
  | zero => intro b acc; simp [drain_loop]
  | succ n ih =>
      intro b acc
      simp only [drain_loop, ih]
      simp
      omega

/-- buffer_get_events extracts exactly min(count, max_count) events. -/
theorem buffer_get_events_len (b : Ring) (m : Nat) :
    (buffer_get_events b m).1.length = min b.count m := by
  simp [buffer_get_events, drain_loop_len]

/-- A ring holding the single event `e` (capacity 4). -/
def c3_ring (e : Event) : Ring :=
  { events := [e, default, default, default], capacity := 4, head := 1,
    tail := 0, count := 1 }

/-- Runtime with TPM signing enabled and one buffered event `e`. -/
def c3_rt (e : Event) : Runtime :=
  { initialized := true, tpm_enabled := true, chunk_sequence := 0,
    buffer := c3_ring e }

set_option maxRecDepth 4096 in
/-- C3 counterexample: two runs whose extracted events have different
contiguous byte images produce chunks with identical signatures (the
constant 0x5A fill), so the signature is not computed over the byte image
of the extracted events and different byte images do not give different
signature inputs. -/
theorem c3_counterexample :
    (dsv4l2rt_get_signed_chunk (c3_rt ev_a)).1 =
      .ok ({ chunk_id := 0, timestamp_ns := 0, event_count := 1,
             tpm_signature := List.replicate 256 0x5A }, [ev_a]) ∧
    (dsv4l2rt_get_signed_chunk (c3_rt ev_b)).1 =
      .ok ({ chunk_id := 0, timestamp_ns := 0, event_count := 1,
             tpm_signature := List.replicate 256 0x5A }, [ev_b]) ∧
    chunk_bytes [ev_a] ≠ chunk_bytes [ev_b] := by
  refine ⟨by decide, by decide, by decide⟩

/-- C3 amended: when initialised, get_signed_chunk fails with the
BufferEmpty errno (-EAGAIN) on an empty ring; otherwise it extracts
exactly min(count, 256) ≤ 256 events, stamps the header with the current
32-bit chunk counter (which then increments modulo 2^32, so chunk ids
strictly increase until the counter wraps), and fills the signature with
the constant fallback pattern — 0x5A bytes when TPM signing is enabled,
zeros otherwise — independent of the extracted events. -/
theorem c3_amended_signed_chunk :
    ∀ rt : Runtime, rt.initialized = true →
      (rt.buffer.count = 0 →
        (dsv4l2rt_get_signed_chunk rt).1 = .error .eagain) ∧
      (rt.buffer.count ≠ 0 →
        ∃ hdr evs,
          (dsv4l2rt_get_signed_chunk rt).1 = .ok (hdr, evs) ∧
          evs.length = min rt.buffer.count 256 ∧
          evs.length ≤ 256 ∧
          hdr.event_count = evs.length ∧
          hdr.chunk_id = rt.chunk_sequence ∧
          (dsv4l2rt_get_signed_chunk rt).2.chunk_sequence =
            (rt.chunk_sequence + 1) % 2 ^ 32 ∧
          hdr.tpm_signature = (if rt.tpm_enabled then List.replicate 256 0x5A
            else List.replicate 256 0)) := by
  intro rt hinit
  constructor
  · intro hc0
    have hlen : (buffer_get_events rt.buffer 256).1.length = 0 := by
      rw [buffer_get_events_len]
      omega
    have hbe : (buffer_get_events rt.buffer 256).1.isEmpty = true := by
      rw [List.length_eq_zero] at hlen
      rw [hlen]
      rfl
    simp [dsv4l2rt_get_signed_chunk, hinit, hbe]
  · intro hcn
    have hlen : (buffer_get_events rt.buffer 256).1.length =
        min rt.buffer.count 256 := buffer_get_events_len rt.buffer 256
    have hbe : (buffer_get_events rt.buffer 256).1.isEmpty = false := by
      rcases h : (buffer_get_events rt.buffer 256).1 with _ | ⟨x, xs⟩
      · rw [h] at hlen
        simp at hlen
        omega
      · rfl
    have hok : (dsv4l2rt_get_signed_chunk rt).1 =
        .ok ({ chunk_id := rt.chunk_sequence,
               timestamp_ns :=
                 ((buffer_get_events rt.buffer 256).1.headD default).ts_ns,
               event_count := (buffer_get_events rt.buffer 256).1.length,
               tpm_signature := if rt.tpm_enabled then
                 List.replicate 256 0x5A else List.replicate 256 0 },
             (buffer_get_events rt.buffer 256).1) := by
      simp only [dsv4l2rt_get_signed_chunk]
      rw [if_neg (by simp [hinit]), if_neg (by simp [hbe])]
    have hseq : (dsv4l2rt_get_signed_chunk rt).2.chunk_sequence =
        (rt.chunk_sequence + 1) % 2 ^ 32 := by
      simp only [dsv4l2rt_get_signed_chunk]
      rw [if_neg (by simp [hinit]), if_neg (by simp [hbe])]
    exact ⟨_, _, hok, hlen, by omega, rfl, rfl, hseq, rfl⟩

/-- Witness for c3_amended_signed_chunk at the one-event TPM runtime. -/
theorem c3_amended_witness :
    ∃ hdr evs,
      (dsv4l2rt_get_signed_chunk (c3_rt ev_a)).1 = .ok (hdr, evs) ∧
      evs.length = min (c3_rt ev_a).buffer.count 256 ∧
      evs.length ≤ 256 ∧
      hdr.event_count = evs.length ∧
      hdr.chunk_id = (c3_rt ev_a).chunk_sequence ∧
      (dsv4l2rt_get_signed_chunk (c3_rt ev_a)).2.chunk_sequence =
        ((c3_rt ev_a).chunk_sequence + 1) % 2 ^ 32 ∧
      hdr.tpm_signature = (if (c3_rt ev_a).tpm_enabled then
        List.replicate 256 0x5A else List.replicate 256 0) :=
  (c3_amended_signed_chunk (c3_rt ev_a) rfl).2 (by decide)

/-- Extracting at the end of a known prefix. -/
theorem slice_of_append (P R : List Nat) (k : Nat) :
    slice (P ++ R) P.length k = R.take k := by
  simp [slice]

/-- getD at the end of a known prefix. -/
theorem getD_of_append (P R : List Nat) (d : Nat) :
    (P ++ R).getD P.length d = R.getD 0 d := by
  simp [List.getD_eq_getElem?_getD,
    List.getElem?_append_right (le_refl P.length)]

/-- The long-form accumulator over an appended byte. -/
theorem ber_long_append_one (xs : List Nat) (b : Nat) :
    ber_long_value (xs ++ [b]) = ber_long_value xs * 256 + b := by
  simp [ber_long_value, List.foldl_append]

/-- The long-form accumulator decodes the minimal big-endian bytes. -/
theorem ber_long_be_bytes (n : Nat) : ber_long_value (be_bytes n) = n := by
  induction n using Nat.strong_induction_on with
  | _ n ih =>
    rw [be_bytes]
    split_ifs with h0
    · rw [h0]
      rfl
    · rw [ber_long_append_one,
        ih (n / 256) (Nat.div_lt_self (Nat.pos_of_ne_zero h0) (by omega))]
      omega

/-- Values below 256^k need at most k big-endian bytes. -/
theorem be_bytes_len_le : ∀ (k n : Nat), n < 256 ^ k →
    (be_bytes n).length ≤ k := by
  intro k
  induction k with
  | zero =>
      intro n h
      have hn : n = 0 := by simpa using h
      rw [hn, be_bytes]
      simp
  | succ k ih =>
      intro n h
      rw [be_bytes]
      split_ifs with h0
      · simp
      · simp only [List.length_append, List.length_singleton]
        have hdiv : n / 256 < 256 ^ k := by
          have h256 : (256 : Nat) ^ (k + 1) = 256 ^ k * 256 := by ring
          rw [h256] at h
          exact (Nat.div_lt_iff_lt_mul (by omega)).mpr h
        have := ih (n / 256) hdiv
        omega

/-- A BER length encoding is never empty. -/
theorem ber_encode_len_pos (n : Nat) : 0 < (ber_encode n).length := by
  unfold ber_encode
  split_ifs <;> simp

/-- Length of a serialised item. -/
theorem ser_item_len (it : KlvItem) : (ser_item it).length =
    it.key.length + (ber_encode it.length).length + it.value.length := by
  simp [ser_item]
  omega

/-- A valid serialised item spans at least 17 bytes. -/
theorem ser_item_len_ge (it : KlvItem) (h : valid_item it) :
    17 ≤ (ser_item it).length := by
  obtain ⟨hk, hv, _, _, _⟩ := h
  have := ber_encode_len_pos it.length
  rw [ser_item_len, hk]
  omega

/-- ser_all over a cons. -/
theorem ser_all_cons (it : KlvItem) (rest : List KlvItem) :
    ser_all (it :: rest) = ser_item it ++ ser_all rest := by
  simp [ser_all]

/-- klv_kept keeps every non-final item. -/
theorem klv_kept_cons_cons (it r : KlvItem) (rs : List KlvItem) :
    klv_kept (it :: r :: rs) = it :: klv_kept (r :: rs) := by
  cases hgl : (r :: rs).getLast? with
  | none => exact absurd hgl (by simp)
  | some x =>
      simp only [klv_kept, List.getLast?_cons_cons, hgl]
      split_ifs <;> simp

/-- klv_kept on a single item: dropped exactly when its value is empty. -/
theorem klv_kept_single (it : KlvItem) :
    klv_kept [it] = if it.value.isEmpty then [] else [it] := by
  simp [klv_kept]

/-- An arbitrary 16-byte key. -/
def c7_key : List Nat := List.replicate 16 6

/-- A well-formed buffer of exactly one triplet with an empty value. -/
def c7_buf : List Nat := c7_key ++ [0]

/-- C7 counterexample: c7_buf is a well-formed KLV buffer (one valid
triplet, no trailing bytes), the parser succeeds on it, yet the
re-serialisation of the returned items is empty, not byte-identical to the
buffer: the 17-byte final triplet is never consumed. -/
theorem c7_counterexample :
    klv_wellformed c7_buf ∧
    dsv4l2_parse_klv c7_buf = some ([], 0) ∧
    ser_all [] ≠ c7_buf := by
  refine ⟨⟨[⟨c7_key, 0, []⟩], ?_, by decide⟩, by decide, by decide⟩
  intro it hit
  simp only [List.mem_singleton] at hit
  subst hit
  refine ⟨by decide, by decide, by decide, by decide, by decide⟩

/-- Parsing a canonically serialised item list after an arbitrary consumed
prefix: all items are returned except a final empty-valued one, whose 17
bytes the loop condition refuses to enter. -/
theorem parse_loop_ser (L : List KlvItem) :
    ∀ (fuel : Nat) (C : List Nat) (acc : List KlvItem),
      (∀ it ∈ L, valid_item it) →
      (ser_all L).length < fuel →
      dsv4l2_parse_klv_loop fuel (C ++ ser_all L) C.length acc =
        some (acc ++ klv_kept L, C.length + (ser_all (klv_kept L)).length) := by
  induction L with
  | nil =>
      intro fuel C acc _ hfuel
      rcases fuel with _ | fuel
      · exact absurd hfuel (by omega)
      · have h1 : C ++ ser_all ([] : List KlvItem) = C := by simp [ser_all]
        rw [h1]
        simp only [dsv4l2_parse_klv_loop]
        rw [if_neg (by omega)]
        simp [klv_kept, ser_all]
  | cons it rest ih =>
      intro fuel C acc hv hfuel
      have hvit : valid_item it := hv it (by simp)
      obtain ⟨hk16, hvl, hkb, hvb, hlt32⟩ := hvit
      have hvrest : ∀ x ∈ rest, valid_item x := fun x hx => hv x (by simp [hx])
      have hser17 : 17 ≤ (ser_item it).length :=
        ser_item_len_ge it ⟨hk16, hvl, hkb, hvb, hlt32⟩
      rcases fuel with _ | fuel
      · rw [ser_all_cons] at hfuel
        simp only [List.length_append] at hfuel
        omega
      have hdata : C ++ ser_all (it :: rest) =
          C ++ (it.key ++ (ber_encode it.length ++
            (it.value ++ ser_all rest))) := by
        rw [ser_all_cons, ser_item]
        simp [List.append_assoc]
      have hdlen : (C ++ ser_all (it :: rest)).length =
          C.length + 16 + (ber_encode it.length).length +
            it.value.length + (ser_all rest).length := by
        rw [hdata]
        simp [hk16]
        omega
      by_cases hend : rest = [] ∧ it.value = []
      · obtain ⟨hr, hvemp⟩ := hend
        subst hr
        have hlen0 : it.length = 0 := by
          rw [← hvl, hvemp]
          rfl
        have henc : ber_encode it.length = [0] := by
          unfold ber_encode
          rw [hlen0, if_pos (by omega)]
        have hdl : (C ++ ser_all [it]).length = C.length + 17 := by
          rw [hdlen, henc, hvemp]
          simp [ser_all]
        simp only [dsv4l2_parse_klv_loop]
        rw [if_neg (by rw [hdl]; omega)]
        rw [klv_kept_single, if_pos (by rw [hvemp]; rfl)]
        simp [ser_all]
      · have hrestlen : rest ≠ [] → 17 ≤ (ser_all rest).length := by
          intro hne
          rcases rest with _ | ⟨r, rs⟩
          · exact absurd rfl hne
          · rw [ser_all_cons]
            have := ser_item_len_ge r (hvrest r (by simp))
            simp only [List.length_append]
            omega
        have hlong : it.value ≠ [] → 1 ≤ it.value.length := by
          intro hne
          rcases hv0 : it.value with _ | ⟨x, xs⟩
          · exact absurd hv0 hne
          · simp
        have hencpos := ber_encode_len_pos it.length
        have hguard : C.length + 17 < (C ++ ser_all (it :: rest)).length := by
          rw [hdlen]
          by_cases hr : rest = []
          · have hvne : it.value ≠ [] := fun hveq => hend ⟨hr, hveq⟩
            have := hlong hvne
            omega
          · have := hrestlen hr
            omega
        have hkept : klv_kept (it :: rest) = it :: klv_kept rest := by
          rcases rest with _ | ⟨r, rs⟩
          · have hvne : it.value ≠ [] := fun hveq => hend ⟨rfl, hveq⟩
            rw [klv_kept_single, if_neg (by simpa using hvne)]
            rfl
          · exact klv_kept_cons_cons it r rs
        have hfuel2 : (ser_all rest).length < fuel := by
          rw [ser_all_cons] at hfuel
          simp only [List.length_append] at hfuel
          omega
        have hkey : slice (C ++ ser_all (it :: rest)) C.length 16 = it.key := by
          rw [hdata, slice_of_append]
          have h16 : (16 : Nat) = it.key.length := hk16.symm
          rw [h16, List.take_left]
        have hd2 : C ++ ser_all (it :: rest) =
            (C ++ it.key) ++ (ber_encode it.length ++
              (it.value ++ ser_all rest)) := by
          rw [hdata]
          simp [List.append_assoc]
        have hoff2 : C.length + 16 = (C ++ it.key).length := by simp [hk16]
        have hdsplit : C ++ ser_all (it :: rest) =
            (C ++ ser_item it) ++ ser_all rest := by
          rw [ser_all_cons]
          simp [List.append_assoc]
        simp only [dsv4l2_parse_klv_loop]
        rw [if_pos hguard]
        by_cases hshort : it.length < 128
        · have henc : ber_encode it.length = [it.length] := by
            unfold ber_encode
            rw [if_pos hshort]
          have hlbval : (C ++ ser_all (it :: rest)).getD (C.length + 16) 0 =
              it.length := by
            rw [hd2, hoff2, getD_of_append, henc]
            rfl
          have hvalslice : slice (C ++ ser_all (it :: rest))
              (C.length + 17) it.length = it.value := by
            have hd3 : C ++ ser_all (it :: rest) =
                (C ++ it.key ++ ber_encode it.length) ++
                  (it.value ++ ser_all rest) := by
              rw [hdata]
              simp [List.append_assoc]
            have hoff3 : C.length + 17 =
                (C ++ it.key ++ ber_encode it.length).length := by
              simp [hk16, henc]
            rw [hd3, hoff3, slice_of_append, ← hvl, List.take_left]
          simp only [hlbval, hkey]
          rw [if_neg (by omega : ¬ (128 : Nat) ≤ it.length)]
          rw [if_neg (by rw [hdlen, henc]; simp; omega)]
          rw [hvalslice]
          have hitem_eta : (⟨it.key, it.length, it.value⟩ : KlvItem) = it := rfl
          simp only [hitem_eta]
          have hpos : C.length + 17 + it.length =
              (C ++ ser_item it).length := by
            simp [ser_item_len, hk16, henc]
            omega
          rw [hpos, hdsplit]
          rw [ih fuel (C ++ ser_item it) (acc ++ [it]) hvrest hfuel2]
          rw [hkept]
          congr 1
          rw [Prod.mk.injEq]
          constructor
          · simp
          · rw [ser_all_cons]
            simp only [List.length_append]
            omega
        · have henc : ber_encode it.length =
              (128 + (be_bytes it.length).length) :: be_bytes it.length := by
            unfold ber_encode
            rw [if_neg hshort]
          have hk4 : (be_bytes it.length).length ≤ 4 :=
            be_bytes_len_le 4 it.length (by
              have : (2 : Nat) ^ 32 = 256 ^ 4 := by norm_num
              omega)
          have hlbval : (C ++ ser_all (it :: rest)).getD (C.length + 16) 0 =
              128 + (be_bytes it.length).length := by
            rw [hd2, hoff2, getD_of_append, henc]
            rfl
          have hlenslice : slice (C ++ ser_all (it :: rest)) (C.length + 17)
              (be_bytes it.length).length = be_bytes it.length := by
            have hd3 : C ++ ser_all (it :: rest) =
                (C ++ it.key ++ [128 + (be_bytes it.length).length]) ++
                  (be_bytes it.length ++ (it.value ++ ser_all rest)) := by
              rw [hdata, henc]
              simp [List.append_assoc]
            have hoff3 : C.length + 17 =
                (C ++ it.key ++
                  [128 + (be_bytes it.length).length]).length := by
              simp [hk16]
            rw [hd3, hoff3, slice_of_append, List.take_left]
          have hvalslice : slice (C ++ ser_all (it :: rest))
              (C.length + 17 + (be_bytes it.length).length) it.length =
              it.value := by
            have hd3 : C ++ ser_all (it :: rest) =
                (C ++ it.key ++ ber_encode it.length) ++
                  (it.value ++ ser_all rest) := by
              rw [hdata]
              simp [List.append_assoc]
            have hoff3 : C.length + 17 + (be_bytes it.length).length =
                (C ++ it.key ++ ber_encode it.length).length := by
              simp [hk16, henc]
              omega
            rw [hd3, hoff3, slice_of_append, ← hvl, List.take_left]
          simp only [hlbval, hkey]
          rw [if_pos (by omega : (128 : Nat) ≤ 128 + (be_bytes it.length).length)]
          simp only [Nat.add_sub_cancel_left]
          rw [if_neg (by
            push_neg
            refine ⟨by omega, ?_⟩
            rw [hdlen, henc]
            simp
            omega)]
          rw [hlenslice, ber_long_be_bytes]
          rw [if_neg (by rw [hdlen, henc]; simp; omega)]
          rw [hvalslice]
          have hitem_eta : (⟨it.key, it.length, it.value⟩ : KlvItem) = it := rfl
          simp only [hitem_eta]
          have hpos : C.length + 17 + (be_bytes it.length).length + it.length =
              (C ++ ser_item it).length := by
            simp [ser_item_len, hk16, henc]
            omega
          rw [hpos, hdsplit]
          rw [ih fuel (C ++ ser_item it) (acc ++ [it]) hvrest hfuel2]
          rw [hkept]
          congr 1
          rw [Prod.mk.injEq]
          constructor
          · simp
          · rw [ser_all_cons]
            simp only [List.length_append]
            omega

/-- A valid BER encoding of the length `n` (glossary: short form below
128, otherwise a count byte with the high bit set followed by at most 4
big-endian bytes). -/
def ber_valid_enc (bs : List Nat) (n : Nat) : Prop :=
  (bs = [n] ∧ n < 128) ∨
  (∃ k rest2, bs = (128 + k) :: rest2 ∧ rest2.length = k ∧ k ≤ 4 ∧
    ber_long_value rest2 = n)

/-- Adjacent slices concatenate. -/
theorem slice_adjacent (l : List Nat) (a m k : Nat) :
    slice l a m ++ slice l (a + m) k = slice l a (m + k) := by
  simp only [slice]
  rw [List.take_add]
  congr 1
  rw [List.drop_drop]

/-- Length of a slice fully inside the list. -/
theorem slice_len_of_le (l : List Nat) (a k : Nat) (h : a + k ≤ l.length) :
    (slice l a k).length = k := by
  simp [slice]
  omega

/-- A one-byte slice is the getD at that position. -/
theorem slice_one (l : List Nat) (a : Nat) (h : a < l.length) :
    slice l a 1 = [l.getD a 0] := by
  rcases hd : l.drop a with _ | ⟨x, xs⟩
  · have hne : l.drop a ≠ [] := by
      apply List.ne_nil_of_length_pos
      simp
      omega
    exact absurd hd hne
  · have h2 : l.getD a 0 = x := by
      have h3 := getD_drop_add l a 0 0
      rw [hd] at h3
      simpa using h3.symm
    show (l.drop a).take 1 = [l.getD a 0]
    rw [hd, h2]
    rfl

set_option maxRecDepth 8192 in
/-- Whenever the parse loop succeeds, the returned items extend the
accumulator, and concatenating key ‖ found-BER-length ‖ value over the new
items reconstructs exactly the consumed byte range of the buffer. -/
theorem parse_loop_spans :
    ∀ (fuel : Nat) (data : List Nat) (pos : Nat) (acc items : List KlvItem)
      (fin : Nat),
      pos ≤ data.length →
      dsv4l2_parse_klv_loop fuel data pos acc = some (items, fin) →
      ∃ tl encs, items = acc ++ tl ∧ pos ≤ fin ∧ fin ≤ data.length ∧
        encs.length = tl.length ∧
        (∀ i (h1 : i < tl.length) (h2 : i < encs.length),
          ber_valid_enc (encs.get ⟨i, h2⟩) ((tl.get ⟨i, h1⟩).length)) ∧
        (List.zipWith (fun it e => it.key ++ e ++ it.value) tl encs).flatten
          = slice data pos (fin - pos) := by
  intro fuel
  induction fuel with
  | zero =>
      intro data pos acc items fin hpos hp
      simp [dsv4l2_parse_klv_loop] at hp
  | succ fuel ih =>
      intro data pos acc items fin hpos hp
      simp only [dsv4l2_parse_klv_loop] at hp
      by_cases hg : pos + 17 < data.length
      case neg =>
        rw [if_neg hg] at hp
        cases hp
        refine ⟨[], [], by simp, le_refl _, hpos, rfl, ?_, by simp [slice]⟩
        intro i h1 h2
        exact absurd h1 (by simp)
      case pos =>
        rw [if_pos hg] at hp
        set lb := data.getD (pos + 16) 0 with hlbdef
        have hlbone : slice data (pos + 16) 1 = [lb] :=
          slice_one data (pos + 16) (by omega)
        by_cases hform : 128 ≤ lb
        · rw [if_pos hform] at hp
          set nb := lb - 128 with hnbdef
          by_cases hc1 : nb > 4 ∨ pos + 17 + nb > data.length
          · rw [if_pos hc1] at hp
            cases hp
          · rw [if_neg hc1] at hp
            push_neg at hc1
            obtain ⟨hc1a, hc1b⟩ := hc1
            set len := ber_long_value (slice data (pos + 17) nb) with hlendef
            by_cases hc2 : pos + 17 + nb + len > data.length
            · rw [if_pos hc2] at hp
              cases hp
            · rw [if_neg hc2] at hp
              push_neg at hc2
              obtain ⟨tl2, encs2, hit, hpf, hfl, helen, hvalid, hflat⟩ :=
                ih data (pos + 17 + nb + len)
                  (acc ++ [⟨slice data pos 16, len,
                    slice data (pos + 17 + nb) len⟩]) items fin
                  (by omega) hp
              refine ⟨⟨slice data pos 16, len,
                  slice data (pos + 17 + nb) len⟩ :: tl2,
                (lb :: slice data (pos + 17) nb) :: encs2,
                by rw [hit]; simp, by omega, hfl, by simp [helen], ?_, ?_⟩
              · intro i h1 h2
                cases i with
                | zero =>
                    refine Or.inr ⟨nb, slice data (pos + 17) nb, ?_,
                      slice_len_of_le data (pos + 17) nb (by omega),
                      hc1a, rfl⟩
                    have hlbnb : 128 + nb = lb := by omega
                    rw [hlbnb]
                    rfl
                | succ i =>
                    exact hvalid i (by simpa using h1) (by simpa using h2)
              · have hzc : (List.zipWith
                    (fun it e => it.key ++ e ++ it.value)
                    (⟨slice data pos 16, len,
                      slice data (pos + 17 + nb) len⟩ :: tl2)
                    ((lb :: slice data (pos + 17) nb) :: encs2)).flatten =
                    (slice data pos 16 ++ (lb :: slice data (pos + 17) nb) ++
                      slice data (pos + 17 + nb) len) ++
                    (List.zipWith (fun it e => it.key ++ e ++ it.value)
                      tl2 encs2).flatten := by
                  simp
                rw [hzc, hflat]
                have e1 : pos + 16 + 1 = pos + 17 := by omega
                have hmid : (lb :: slice data (pos + 17) nb) =
                    slice data (pos + 16) (1 + nb) := by
                  rw [← slice_adjacent data (pos + 16) 1 nb, hlbone, e1]
                  rfl
                rw [hmid]
                have hAB : slice data pos 16 ++
                    slice data (pos + 16) (1 + nb) =
                    slice data pos (17 + nb) := by
                  rw [slice_adjacent data pos 16 (1 + nb)]
                  congr 1
                  omega
                rw [hAB]
                have e3 : pos + 17 + nb = pos + (17 + nb) := by omega
                have hABC : slice data pos (17 + nb) ++
                    slice data (pos + 17 + nb) len =
                    slice data pos (17 + nb + len) := by
                  rw [e3, slice_adjacent data pos (17 + nb) len]
                rw [hABC]
                have e4 : pos + 17 + nb + len = pos + (17 + nb + len) := by
                  omega
                rw [e4, slice_adjacent data pos (17 + nb + len)]
                congr 1
                omega
        · rw [if_neg hform] at hp
          push_neg at hform
          by_cases hc3 : pos + 17 + lb > data.length
          · rw [if_pos hc3] at hp
            cases hp
          · rw [if_neg hc3] at hp
            push_neg at hc3
            obtain ⟨tl2, encs2, hit, hpf, hfl, helen, hvalid, hflat⟩ :=
              ih data (pos + 17 + lb)
                (acc ++ [⟨slice data pos 16, lb, slice data (pos + 17) lb⟩])
                items fin (by omega) hp
            refine ⟨⟨slice data pos 16, lb,
                slice data (pos + 17) lb⟩ :: tl2, [lb] :: encs2,
              by rw [hit]; simp, by omega, hfl, by simp [helen], ?_, ?_⟩
            · intro i h1 h2
              cases i with
              | zero => exact Or.inl ⟨rfl, hform⟩
              | succ i =>
                  exact hvalid i (by simpa using h1) (by simpa using h2)
            · have hzc : (List.zipWith
                  (fun it e => it.key ++ e ++ it.value)
                  (⟨slice data pos 16, lb,
                    slice data (pos + 17) lb⟩ :: tl2)
                  ([lb] :: encs2)).flatten =
                  (slice data pos 16 ++ [lb] ++
                    slice data (pos + 17) lb) ++
                  (List.zipWith (fun it e => it.key ++ e ++ it.value)
                    tl2 encs2).flatten := by
                simp
              rw [hzc, hflat]
              have hAB : slice data pos 16 ++ [lb] =
                  slice data pos 17 := by
                rw [← hlbone, slice_adjacent data pos 16 1]
              rw [hAB]
              rw [slice_adjacent data pos 17 lb]
              have e4 : pos + 17 + lb = pos + (17 + lb) := by omega
              rw [e4, slice_adjacent data pos (17 + lb)]
              congr 1
              omega

instance valid_item_dec (it : KlvItem) : Decidable (valid_item it) := by
  unfold valid_item
  infer_instance

/-- ser_all distributes over append. -/
theorem ser_all_append (A B : List KlvItem) :
    ser_all (A ++ B) = ser_all A ++ ser_all B := by
  simp [ser_all]

/-- C7 amended: (1) whenever the parser succeeds, concatenating
key ‖ BER-encoded length ‖ value over the returned items — with each
length in the (valid BER) encoding found in the buffer — reconstructs
exactly the consumed bytes, a prefix of B; (2) parsing the canonical
serialisation of a valid item list returns the whole list when the final
item's value is nonempty, and the list without its final empty-valued
item otherwise, the reserialisation being exactly the consumed prefix
(the entire buffer except an unconsumed final 17-byte triplet). -/
theorem c7_amended_klv :
    (∀ (data : List Nat) (items : List KlvItem) (fin : Nat),
      dsv4l2_parse_klv data = some (items, fin) →
      fin ≤ data.length ∧
      ∃ encs, encs.length = items.length ∧
        (∀ i (h1 : i < items.length) (h2 : i < encs.length),
          ber_valid_enc (encs.get ⟨i, h2⟩) ((items.get ⟨i, h1⟩).length)) ∧
        (List.zipWith (fun it e => it.key ++ e ++ it.value) items
          encs).flatten = data.take fin ∧
        (List.zipWith (fun it e => it.key ++ e ++ it.value) items
          encs).flatten <+: data) ∧
    (∀ L : List KlvItem, (∀ it ∈ L, valid_item it) →
      dsv4l2_parse_klv (ser_all L) =
        some (klv_kept L, (ser_all (klv_kept L)).length) ∧
      ser_all (klv_kept L) =
        (ser_all L).take ((ser_all (klv_kept L)).length) ∧
      (∀ it0, L.getLast? = some it0 → it0.value ≠ [] →
        klv_kept L = L)) := by
  constructor
  · intro data items fin hp
    unfold dsv4l2_parse_klv at hp
    obtain ⟨tl, encs, hit, _, hfl, helen, hvalid, hflat⟩ :=
      parse_loop_spans (data.length + 1) data 0 [] items fin (by omega) hp
    have htl : tl = items := by simpa using hit.symm
    subst htl
    have hsl : slice data 0 (fin - 0) = data.take fin := by
      simp [slice]
    refine ⟨hfl, encs, helen, hvalid, ?_, ?_⟩
    · rw [hflat, hsl]
    · rw [hflat, hsl]
      exact List.take_prefix _ _
  · intro L hv
    have hser := parse_loop_ser L ((ser_all L).length + 1) [] [] hv (by omega)
    refine ⟨?_, ?_, ?_⟩
    · unfold dsv4l2_parse_klv
      simpa using hser
    · rcases hgl : L.getLast? with _ | it0
      · have hL : L = [] := by
          rcases L with _ | ⟨x, xs⟩
          · rfl
          · simp at hgl
        subst hL
        simp [klv_kept, ser_all]
      · by_cases hvemp : it0.value.isEmpty
        · have hkept : klv_kept L = L.dropLast := by
            simp [klv_kept, hgl, hvemp]
          have hne : L ≠ [] := by
            intro h
            rw [h] at hgl
            simp at hgl
          have hlast : L.getLast hne = it0 := by
            rw [List.getLast?_eq_getLast L hne] at hgl
            exact Option.some.inj hgl
          have hdecomp : L.dropLast ++ [it0] = L := by
            rw [← hlast]
            exact List.dropLast_append_getLast hne
          have hsplit : ser_all L = ser_all L.dropLast ++ ser_all [it0] := by
            conv_lhs => rw [← hdecomp]
            rw [ser_all_append]
          rw [hkept, hsplit, List.take_left]
        · have hkept : klv_kept L = L := by
            simp [klv_kept, hgl, hvemp]
          rw [hkept]
          exact (List.take_length _).symm
    · intro it0 hgl hvne
      have hvemp : it0.value.isEmpty = false := by
        rcases hval : it0.value with _ | ⟨x, xs⟩
        · exact absurd hval hvne
        · rfl
      simp [klv_kept, hgl, hvemp]

/-- The items of spec scenario S4. -/
def s4_item1 : KlvItem := ⟨List.replicate 16 1, 8, [1, 2, 3, 4, 5, 6, 7, 8]⟩
def s4_item2 : KlvItem := ⟨List.replicate 16 2, 4, [0xAA, 0xBB, 0xCC, 0xDD]⟩

/-- Witness for c7_amended_klv on scenario S4 (two short-form triplets,
nonempty final value): parsing returns both items and reserialisation is
byte-identical to the whole buffer. -/
theorem c7_witness :
    dsv4l2_parse_klv (ser_all [s4_item1, s4_item2]) =
      some (klv_kept [s4_item1, s4_item2],
        (ser_all (klv_kept [s4_item1, s4_item2])).length) ∧
    klv_kept [s4_item1, s4_item2] = [s4_item1, s4_item2] ∧
    ser_all (klv_kept [s4_item1, s4_item2]) =
      (ser_all [s4_item1, s4_item2]).take
        ((ser_all (klv_kept [s4_item1, s4_item2])).length) :=
  ⟨(c7_amended_klv.2 [s4_item1, s4_item2] (by decide)).1,
   by decide,
   (c7_amended_klv.2 [s4_item1, s4_item2] (by decide)).2.1⟩

end DSV4L2
